import Mathlib

/-!
# Wayfire decoration frame and move-snap helper

A shallow embedding of

* `simple_decoration_surface` (`src/plugins/decor/deco-subsurface.cpp`): edge
  classification, button dispatch and the frame-size arithmetic;
* `wf::move_snap_helper_t` (`src/plugins/single_plugins/move-snap-helper.hpp`):
  the drag session with its snap-off lock and grab anchor.

Modelling conventions.

* C++ `int` is `Int`.  Signed overflow is undefined behaviour in C++, so the
  model describes the executions in which it does not occur.  `uint32_t` edge
  masks are `Nat`; only the four low bits are ever set.
* C++ `double` is IEEE binary64 with round-to-nearest-even.  A finite double
  is held as the rational it denotes; every arithmetic operation and every
  `int` to `double` conversion rounds its exact result to 53 significant bits
  (`round_double`).  The exponent range is not modelled: the values that arise
  from 32-bit `int` operands are far from the overflow and subnormal
  thresholds.  `int(d)` is truncation toward zero.
* Calls on collaborators (the window, the wobbly plugin, the output's signal
  bus) are recorded as the list of requests a method emits.  The window's
  answers to requests are not part of the sources, so they are parameters
  (`view_interface`).
* The `geometry-changed` callback and changes of the window by other actors
  are events of their own, delivered between the calls of the helper.
-/

namespace wf

/-! ## Geometry -/

/-- The C++ `wf_point`: a pair of `int` coordinates. -/
structure wf_point where
  x : Int
  y : Int
deriving DecidableEq

/-- The C++ `wf_geometry` (`wlr_box`): origin and size. -/
structure wf_geometry where
  x : Int
  y : Int
  width : Int
  height : Int
deriving DecidableEq

/-! ## Decoration surface (`deco-subsurface.cpp`) -/

/-- The wlroots constant `WLR_EDGE_TOP` (`wlr/util/edges.h`, `1 << 0`). -/
def WLR_EDGE_TOP : Nat := 1
/-- The wlroots constant `WLR_EDGE_BOTTOM` (`1 << 1`). -/
def WLR_EDGE_BOTTOM : Nat := 2
/-- The wlroots constant `WLR_EDGE_LEFT` (`1 << 2`). -/
def WLR_EDGE_LEFT : Nat := 4
/-- The wlroots constant `WLR_EDGE_RIGHT` (`1 << 3`). -/
def WLR_EDGE_RIGHT : Nat := 8

/-- The Linux input code `BTN_LEFT` (`linux/input-event-codes.h`, `0x110`). -/
def BTN_LEFT : Nat := 0x110
/-- The wlroots button state `WLR_BUTTON_RELEASED`. -/
def WLR_BUTTON_RELEASED : Nat := 0
/-- The wlroots button state `WLR_BUTTON_PRESSED`. -/
def WLR_BUTTON_PRESSED : Nat := 1

/-- The fields of `simple_decoration_surface` that the frame arithmetic and
the input handlers read or write. -/
structure simple_decoration_surface where
  current_thickness : Int
  current_titlebar : Int
  width : Int
  height : Int
  cursor_x : Int
  cursor_y : Int
deriving DecidableEq

/-- Signals emitted on the output by the decoration surface. -/
inductive deco_signal where
  | move_request
  | resize_request (edges : Nat)
deriving DecidableEq

namespace simple_decoration_surface

/-- The method `get_offset()`: `{ -current_thickness, -current_titlebar }`. -/
def get_offset (s : simple_decoration_surface) : wf_point :=
  { x := -s.current_thickness, y := -s.current_titlebar }

/-- The method `on_pointer_motion(x, y)` (and `on_pointer_enter`): stores the
cursor position. -/
def on_pointer_motion (s : simple_decoration_surface) (x y : Int) :
    simple_decoration_surface :=
  { s with cursor_x := x, cursor_y := y }

/-- The method `get_edges(x, y)`: four independent tests, each or-ing one flag
into the mask. -/
def get_edges (s : simple_decoration_surface) (x y : Int) : Nat :=
  let edges : Nat := 0
  let edges := if x ≤ s.current_thickness then edges ||| WLR_EDGE_LEFT else edges
  let edges := if x ≥ s.width - s.current_thickness then edges ||| WLR_EDGE_RIGHT else edges
  let edges := if y ≤ s.current_thickness then edges ||| WLR_EDGE_TOP else edges
  let edges := if y ≥ s.height - s.current_thickness then edges ||| WLR_EDGE_BOTTOM else edges
  edges

/-- The method `send_move_request()`. -/
def send_move_request (_s : simple_decoration_surface) : List deco_signal :=
  [deco_signal.move_request]

/-- The method `send_resize_request(x, y)`. -/
def send_resize_request (s : simple_decoration_surface) (x y : Int) : List deco_signal :=
  [deco_signal.resize_request (s.get_edges x y)]

/-- The method `on_pointer_button(button, state)`; the result is the list of
signals emitted. -/
def on_pointer_button (s : simple_decoration_surface) (button state : Nat) :
    List deco_signal :=
  if button ≠ BTN_LEFT ∨ state ≠ WLR_BUTTON_PRESSED then []
  else if s.get_edges s.cursor_x s.cursor_y ≠ 0 then
    s.send_resize_request s.cursor_x s.cursor_y
  else s.send_move_request

/-- The method `on_touch_down(x, y)`. -/
def on_touch_down (s : simple_decoration_surface) (x y : Int) : List deco_signal :=
  if s.get_edges x y ≠ 0 then s.send_resize_request x y else s.send_move_request

/-- The method `expand_wm_geometry(contained_wm_geometry)`. -/
def expand_wm_geometry (s : simple_decoration_surface) (g : wf_geometry) : wf_geometry :=
  { x := g.x - s.current_thickness
    y := g.y - s.current_titlebar
    width := g.width + 2 * s.current_thickness
    height := g.height + (s.current_thickness + s.current_titlebar) }

/-- The method `calculate_resize_size(target_width, target_height)`; the two
reference parameters are returned as a pair. -/
def calculate_resize_size (s : simple_decoration_surface) (target_width target_height : Int) :
    Int × Int :=
  let target_width := target_width - 2 * s.current_thickness
  let target_height := target_height - (s.current_thickness + s.current_titlebar)
  (max target_width 1, max target_height 1)

end simple_decoration_surface

/-- The four edge flags. -/
def edge_flags : List Nat := [WLR_EDGE_TOP, WLR_EDGE_BOTTOM, WLR_EDGE_LEFT, WLR_EDGE_RIGHT]

/-- Number of edge flags contained in a mask. -/
def edge_count (mask : Nat) : Nat :=
  (edge_flags.filter (fun f => mask &&& f ≠ 0)).length

/-! ## Move-snap helper (`move-snap-helper.hpp`) -/

/-- What the helper reads from and asks of the window (`wayfire_view`).  The
window's answers to requests live outside the sources, so each is a function
on an abstract window state `V`. -/
structure view_interface (V : Type) where
  get_wm_geometry : V → wf_geometry
  tiled_edges : V → Nat
  fullscreen : V → Bool
  set_moving : V → Bool → V
  fullscreen_request : V → Bool → V
  tile_request : V → Nat → V
  move : V → Int → Int → V

/-- Calls the helper makes on its collaborators, in program order. -/
inductive request where
  | start_wobbly (x y : Int)
  | move_wobbly (x y : Int)
  | end_wobbly
  | set_moving (moving : Bool)
  | connect_signal
  | disconnect_signal
  | fullscreen_request (state : Bool)
  | tile_request (edges : Nat)
  | move (x y : Int)
deriving DecidableEq

/-- Rounding to the nearest integer, ties to the even one. -/
def round_half_even (q : ℚ) : Int :=
  if q - ⌊q⌋ < 1 / 2 then ⌊q⌋
  else if 1 / 2 < q - ⌊q⌋ then ⌊q⌋ + 1
  else if ⌊q⌋ % 2 = 0 then ⌊q⌋ else ⌊q⌋ + 1

/-- Rounding of an exact value to binary64: the value is scaled by a power of
two so that its magnitude lies in `[2^52, 2^53)`, rounded to the nearest
integer (ties to even) and scaled back. -/
def round_double (q : ℚ) : ℚ :=
  if q = 0 then 0
  else (round_half_even (q / 2 ^ (Int.log 2 |q| - 52)) : ℚ) * 2 ^ (Int.log 2 |q| - 52)

/-- The conversion of an `int` to `double`. -/
def double_of_int (n : Int) : ℚ := round_double (n : ℚ)

/-- The product of two `double`s. -/
def double_mul (a b : ℚ) : ℚ := round_double (a * b)

/-- The quotient of two `double`s (for a non-zero divisor). -/
def double_div (a b : ℚ) : ℚ := round_double (a / b)

/-- The difference of two `double`s. -/
def double_sub (a b : ℚ) : ℚ := round_double (a - b)

/-- The values of a 32-bit `int`. -/
def is_int (n : Int) : Prop := -2147483648 ≤ n ∧ n ≤ 2147483647

instance (n : Int) : Decidable (is_int n) :=
  inferInstanceAs (Decidable (-2147483648 ≤ n ∧ n ≤ 2147483647))

/-- The cast `int(d)` of a `double`: truncation toward zero. -/
def trunc (d : ℚ) : Int := if 0 ≤ d then ⌊d⌋ else ⌈d⌉

/-- The test `distance >= threshold` of `handle_motion`, where
`distance = std::sqrt(d2)` and `threshold` is an `int`: a square root is at
least an integer `t` exactly when `t ≤ 0` or `t * t ≤ d2`
(see `distance_reached_iff_sqrt`). -/
def distance_reached (d2 threshold : Int) : Bool :=
  decide (threshold ≤ 0 ∨ threshold * threshold ≤ d2)

/-- The data members of `move_snap_helper_t`.  The two options are held by
their `as_int()` values; `px` and `py` hold the values of the two `double`s. -/
structure move_snap_helper_t (V : Type) where
  view : V
  grab : wf_point
  enable_snap_off : Int
  snap_off_threshold : Int
  view_in_slot : Bool
  px : ℚ
  py : ℚ
  last_grabbing_position : wf_point

namespace move_snap_helper_t

variable {V : Type}

/-- The method `should_enable_snap_off()`, on the members it reads. -/
def should_enable_snap_off (I : view_interface V) (view : V) (enable_snap_off : Int) : Bool :=
  decide (enable_snap_off ≠ 0) && (decide (I.tiled_edges view ≠ 0) || I.fullscreen view)

/-- The constructor `move_snap_helper_t(view, grab)`; `enable_snap_off` and
`snap_off_threshold` are the values of the two options of section `move`.
The anchor is `1.0 * (grab.x - wmg.x) / wmg.width` in `double` arithmetic: an
`int` subtraction, its conversion, a product and a quotient. -/
def ctor (I : view_interface V) (enable_snap_off snap_off_threshold : Int)
    (view : V) (grab : wf_point) : move_snap_helper_t V × List request :=
  let view_in_slot := should_enable_snap_off I view enable_snap_off
  let wmg := I.get_wm_geometry view
  let px : ℚ := double_div (double_mul 1 (double_of_int (grab.x - wmg.x))) (double_of_int wmg.width)
  let py : ℚ := double_div (double_mul 1 (double_of_int (grab.y - wmg.y))) (double_of_int wmg.height)
  ({ view := I.set_moving view true
     grab := grab
     enable_snap_off := enable_snap_off
     snap_off_threshold := snap_off_threshold
     view_in_slot := view_in_slot
     px := px
     py := py
     last_grabbing_position := grab },
   [request.start_wobbly grab.x grab.y, request.set_moving true, request.connect_signal])

/-- The method `is_view_fixed()`. -/
def is_view_fixed (s : move_snap_helper_t V) : Bool := s.view_in_slot

/-- The method `snap_off()`. -/
def snap_off (I : view_interface V) (s : move_snap_helper_t V) :
    move_snap_helper_t V × List request :=
  let s := { s with view_in_slot := false }
  let r1 : V × List request :=
    if I.fullscreen s.view then
      (I.fullscreen_request s.view false, [request.fullscreen_request false])
    else (s.view, [])
  let r2 : V × List request :=
    if I.tiled_edges r1.1 ≠ 0 then
      (I.tile_request r1.1 0, [request.tile_request 0])
    else (r1.1, [])
  ({ s with view := r2.1 }, r1.2 ++ r2.2)

/-- The target position computed by `adjust_around_grab()`:
`int(last_grabbing_position.x - px * wmg.width)` in `double` arithmetic. -/
def target_position (I : view_interface V) (s : move_snap_helper_t V) : wf_point :=
  let wmg := I.get_wm_geometry s.view
  { x := trunc (double_sub (double_of_int s.last_grabbing_position.x)
      (double_mul s.px (double_of_int wmg.width)))
    y := trunc (double_sub (double_of_int s.last_grabbing_position.y)
      (double_mul s.py (double_of_int wmg.height))) }

/-- The method `adjust_around_grab()`. -/
def adjust_around_grab (I : view_interface V) (s : move_snap_helper_t V) :
    move_snap_helper_t V × List request :=
  let target_position := target_position I s
  ({ s with view := I.move s.view target_position.x target_position.y },
   [request.disconnect_signal, request.move target_position.x target_position.y,
    request.connect_signal])

/-- The method `handle_motion(to)`; the parameter is written `to_`. -/
def handle_motion (I : view_interface V) (s : move_snap_helper_t V) (to_ : wf_point) :
    move_snap_helper_t V × List request :=
  let out := [request.move_wobbly to_.x to_.y]
  let d2 : Int := (to_.x - s.grab.x) * (to_.x - s.grab.x) + (to_.y - s.grab.y) * (to_.y - s.grab.y)
  let r1 : move_snap_helper_t V × List request :=
    if s.view_in_slot && distance_reached d2 s.snap_off_threshold then snap_off I s
    else (s, [])
  if r1.1.view_in_slot then (r1.1, out ++ r1.2)
  else
    let r2 := adjust_around_grab I { r1.1 with last_grabbing_position := to_ }
    (r2.1, out ++ r1.2 ++ r2.2)

/-- The method `handle_input_released()`. -/
def handle_input_released (s : move_snap_helper_t V) : move_snap_helper_t V × List request :=
  (s, [request.end_wobbly])

/-- The callback `view_geometry_changed`. -/
def view_geometry_changed (I : view_interface V) (s : move_snap_helper_t V) :
    move_snap_helper_t V × List request :=
  adjust_around_grab I s

end move_snap_helper_t

/-- What can happen to a drag session between its construction and its
destruction: the three entry points of the helper, and a change of the window
made by another actor. -/
inductive event (V : Type) where
  | motion (to_ : wf_point)
  | input_released
  | geometry_changed
  | view_changed (view : V)

/-- One event: the new session and the requests emitted while handling it. -/
def step {V : Type} (I : view_interface V) (s : move_snap_helper_t V) :
    event V → move_snap_helper_t V × List request
  | event.motion to_ => s.handle_motion I to_
  | event.input_released => s.handle_input_released
  | event.geometry_changed => s.view_geometry_changed I
  | event.view_changed view => ({ s with view := view }, [])

/-- The session after a sequence of events. -/
def run {V : Type} (I : view_interface V) (s : move_snap_helper_t V) :
    List (event V) → move_snap_helper_t V
  | [] => s
  | e :: es => run I (step I s e).1 es

/-- The requests emitted by each event of a sequence, in order. -/
def trace {V : Type} (I : view_interface V) (s : move_snap_helper_t V) :
    List (event V) → List (List request)
  | [] => []
  | e :: es => (step I s e).2 :: trace I (step I s e).1 es

/-- Requests issued by `snap_off()`. -/
def is_snap_request : request → Bool
  | request.fullscreen_request _ => true
  | request.tile_request _ => true
  | _ => false

/-- Requests that change the window: move, tile, fullscreen. -/
def is_window_request : request → Bool
  | request.fullscreen_request _ => true
  | request.tile_request _ => true
  | request.move _ _ => true
  | _ => false

/-- A concrete window for examples: geometry, tiled edges, fullscreen and
moving flags. -/
structure simple_view where
  geometry : wf_geometry
  tiled_edges : Nat
  fullscreen : Bool
  moving : Bool
deriving DecidableEq

/-- A window that honours every request at once: a move sets the origin and
keeps the size, a tile or fullscreen request sets the flag. -/
def simple_view_interface : view_interface simple_view where
  get_wm_geometry v := v.geometry
  tiled_edges v := v.tiled_edges
  fullscreen v := v.fullscreen
  set_moving v b := { v with moving := b }
  fullscreen_request v b := { v with fullscreen := b }
  tile_request v e := { v with tiled_edges := e }
  move v x y := { v with geometry := { v.geometry with x := x, y := y } }

/-- Example frame: border thickness 5, title bar 25, frame 200x150, cursor at
`(x, y)`. -/
def example_frame (x y : Int) : simple_decoration_surface :=
  { current_thickness := 5, current_titlebar := 25, width := 200, height := 150,
    cursor_x := x, cursor_y := y }

/-- A frame narrower than twice its border: thickness 5, frame 8x8. -/
def narrow_frame : simple_decoration_surface :=
  { current_thickness := 5, current_titlebar := 25, width := 8, height := 8,
    cursor_x := 4, cursor_y := 4 }

/-- A window tiled to all four edges, 960x1080 at the origin. -/
def tiled_view : simple_view :=
  { geometry := { x := 0, y := 0, width := 960, height := 1080 },
    tiled_edges := 15, fullscreen := false, moving := false }

/-- A floating window, 100x50 at (10, 20). -/
def floating_view : simple_view :=
  { geometry := { x := 10, y := 20, width := 100, height := 50 },
    tiled_edges := 0, fullscreen := false, moving := false }

/-- A floating window, 1366x768 at the origin. -/
def wide_view : simple_view :=
  { geometry := { x := 0, y := 0, width := 1366, height := 768 },
    tiled_edges := 0, fullscreen := false, moving := false }

/-- The session of the snap-off example: snap-off enabled, threshold 10, grab at
(50, 50) on the tiled window. -/
def tiled_session : move_snap_helper_t simple_view :=
  (move_snap_helper_t.ctor simple_view_interface 1 10 tiled_view { x := 50, y := 50 }).1

/-- Events of the anchor example: a motion, then another actor resizes the
window to 200x100 and the geometry-changed callback runs. -/
def anchor_events : List (event simple_view) :=
  [event.motion { x := 40, y := 40 },
   event.view_changed
     { geometry := { x := 0, y := 0, width := 200, height := 100 },
       tiled_edges := 0, fullscreen := false, moving := true },
   event.geometry_changed]

/-- Events of the snap-off example before the threshold is reached. -/
def pinned_events : List (event simple_view) :=
  [event.motion { x := 55, y := 50 }, event.geometry_changed, event.motion { x := 52, y := 57 }]

/-- Events of the snap-off example after the snap-off. -/
def free_events : List (event simple_view) :=
  [event.motion { x := 70, y := 50 }, event.input_released]

/-! ## Theorems: decoration surface -/

/-- C8 (as stated, refuted): on a frame of size 8x8 with border thickness 5
the point (4, 4) is within the border of all four sides, so `get_edges`
returns all four flags: more than two, with LEFT and RIGHT together and TOP
and BOTTOM together. -/
theorem get_edges_narrow_frame_all_four :
    narrow_frame.get_edges 4 4 =
        WLR_EDGE_LEFT ||| WLR_EDGE_RIGHT ||| WLR_EDGE_TOP ||| WLR_EDGE_BOTTOM ∧
      ¬ edge_count (narrow_frame.get_edges 4 4) ≤ 2 ∧
      (narrow_frame.get_edges 4 4 &&& WLR_EDGE_LEFT ≠ 0 ∧
        narrow_frame.get_edges 4 4 &&& WLR_EDGE_RIGHT ≠ 0) ∧
      (narrow_frame.get_edges 4 4 &&& WLR_EDGE_TOP ≠ 0 ∧
        narrow_frame.get_edges 4 4 &&& WLR_EDGE_BOTTOM ≠ 0) := by
  decide

/-- C8 (amended): for every frame size, `get_edges(x, y)` is the bitwise OR of
LEFT when `x <= thickness`, RIGHT when `x >= width - thickness`, TOP when
`y <= thickness` and BOTTOM when `y >= height - thickness`; the mask never
holds LEFT with RIGHT when the frame is wider than twice the border thickness,
never TOP with BOTTOM when it is taller than twice the thickness, and at most
two flags when both hold. -/
theorem get_edges_mask (s : simple_decoration_surface) (x y : Int) :
    s.get_edges x y =
        (if x ≤ s.current_thickness then WLR_EDGE_LEFT else 0) |||
        (if x ≥ s.width - s.current_thickness then WLR_EDGE_RIGHT else 0) |||
        (if y ≤ s.current_thickness then WLR_EDGE_TOP else 0) |||
        (if y ≥ s.height - s.current_thickness then WLR_EDGE_BOTTOM else 0) ∧
      (2 * s.current_thickness < s.width →
        ¬ (s.get_edges x y &&& WLR_EDGE_LEFT ≠ 0 ∧ s.get_edges x y &&& WLR_EDGE_RIGHT ≠ 0)) ∧
      (2 * s.current_thickness < s.height →
        ¬ (s.get_edges x y &&& WLR_EDGE_TOP ≠ 0 ∧ s.get_edges x y &&& WLR_EDGE_BOTTOM ≠ 0)) ∧
      (2 * s.current_thickness < s.width → 2 * s.current_thickness < s.height →
        edge_count (s.get_edges x y) ≤ 2) := by
  unfold simple_decoration_surface.get_edges
  refine ⟨?_, ?_, ?_, ?_⟩
  · by_cases h1 : x ≤ s.current_thickness <;>
    by_cases h2 : x ≥ s.width - s.current_thickness <;>
    by_cases h3 : y ≤ s.current_thickness <;>
    by_cases h4 : y ≥ s.height - s.current_thickness <;>
    simp only [h1, h2, h3, h4, if_true, if_false] <;> decide
  · intro hw
    by_cases h1 : x ≤ s.current_thickness <;>
    by_cases h2 : x ≥ s.width - s.current_thickness <;>
    by_cases h3 : y ≤ s.current_thickness <;>
    by_cases h4 : y ≥ s.height - s.current_thickness <;>
    first
      | (exfalso; omega)
      | (simp only [h1, h2, h3, h4, if_true, if_false]; decide)
  · intro hh
    by_cases h1 : x ≤ s.current_thickness <;>
    by_cases h2 : x ≥ s.width - s.current_thickness <;>
    by_cases h3 : y ≤ s.current_thickness <;>
    by_cases h4 : y ≥ s.height - s.current_thickness <;>
    first
      | (exfalso; omega)
      | (simp only [h1, h2, h3, h4, if_true, if_false]; decide)
  · intro hw hh
    by_cases h1 : x ≤ s.current_thickness <;>
    by_cases h2 : x ≥ s.width - s.current_thickness <;>
    by_cases h3 : y ≤ s.current_thickness <;>
    by_cases h4 : y ≥ s.height - s.current_thickness <;>
    first
      | (exfalso; omega)
      | (simp only [h1, h2, h3, h4, if_true, if_false]; decide)

/-- C8 (amended), at the frame 200x150 with thickness 5 and the corner point
(2, 2): the mask is LEFT|TOP, two flags. -/
theorem get_edges_mask_witness :
    (2 * (example_frame 2 2).current_thickness < (example_frame 2 2).width ∧
      2 * (example_frame 2 2).current_thickness < (example_frame 2 2).height) ∧
    ¬ ((example_frame 2 2).get_edges 2 2 &&& WLR_EDGE_LEFT ≠ 0 ∧
        (example_frame 2 2).get_edges 2 2 &&& WLR_EDGE_RIGHT ≠ 0) ∧
    ¬ ((example_frame 2 2).get_edges 2 2 &&& WLR_EDGE_TOP ≠ 0 ∧
        (example_frame 2 2).get_edges 2 2 &&& WLR_EDGE_BOTTOM ≠ 0) ∧
    edge_count ((example_frame 2 2).get_edges 2 2) ≤ 2 :=
  ⟨⟨by decide, by decide⟩,
   (get_edges_mask (example_frame 2 2) 2 2).2.1 (by decide),
   (get_edges_mask (example_frame 2 2) 2 2).2.2.1 (by decide),
   (get_edges_mask (example_frame 2 2) 2 2).2.2.2 (by decide) (by decide)⟩

/-- C9: a release, or an event of a button other than the left one, emits
nothing; a left-button press emits exactly one signal: a resize request with
the edge mask of the cursor position when that mask is non-zero, a move
request when it is zero. -/
theorem on_pointer_button_requests (s : simple_decoration_surface) (button state : Nat) :
    (state = WLR_BUTTON_RELEASED → s.on_pointer_button button state = []) ∧
    (state ≠ WLR_BUTTON_PRESSED → s.on_pointer_button button state = []) ∧
    (button ≠ BTN_LEFT → s.on_pointer_button button state = []) ∧
    (button = BTN_LEFT → state = WLR_BUTTON_PRESSED →
      s.get_edges s.cursor_x s.cursor_y ≠ 0 →
      s.on_pointer_button button state =
        [deco_signal.resize_request (s.get_edges s.cursor_x s.cursor_y)]) ∧
    (button = BTN_LEFT → state = WLR_BUTTON_PRESSED →
      s.get_edges s.cursor_x s.cursor_y = 0 →
      s.on_pointer_button button state = [deco_signal.move_request]) := by
  refine ⟨?_, ?_, ?_, ?_, ?_⟩
  · intro h
    subst h
    simp [simple_decoration_surface.on_pointer_button, WLR_BUTTON_RELEASED, WLR_BUTTON_PRESSED]
  · intro h
    simp [simple_decoration_surface.on_pointer_button, h]
  · intro h
    simp [simple_decoration_surface.on_pointer_button, h]
  · intro hb hs he
    simp [simple_decoration_surface.on_pointer_button, hb, hs, he,
      simple_decoration_surface.send_resize_request]
  · intro hb hs he
    simp [simple_decoration_surface.on_pointer_button, hb, hs, he,
      simple_decoration_surface.send_move_request]

/-- C9, at border thickness 5 and frame 200x150: a left press at (2, 75)
yields a resize request with edges LEFT, a left press at (2, 2) one with edges
LEFT|TOP, a left press at (100, 75) a move request, and a release at either
border point yields nothing. -/
theorem on_pointer_button_requests_witness :
    (example_frame 2 75).on_pointer_button BTN_LEFT WLR_BUTTON_PRESSED =
        [deco_signal.resize_request WLR_EDGE_LEFT] ∧
    (example_frame 2 2).on_pointer_button BTN_LEFT WLR_BUTTON_PRESSED =
        [deco_signal.resize_request (WLR_EDGE_LEFT ||| WLR_EDGE_TOP)] ∧
    (example_frame 100 75).on_pointer_button BTN_LEFT WLR_BUTTON_PRESSED =
        [deco_signal.move_request] ∧
    (example_frame 2 75).on_pointer_button BTN_LEFT WLR_BUTTON_RELEASED = [] ∧
    (example_frame 2 2).on_pointer_button BTN_LEFT WLR_BUTTON_RELEASED = [] :=
  ⟨(on_pointer_button_requests (example_frame 2 75) BTN_LEFT WLR_BUTTON_PRESSED).2.2.2.1
      rfl rfl (by decide),
   (on_pointer_button_requests (example_frame 2 2) BTN_LEFT WLR_BUTTON_PRESSED).2.2.2.1
      rfl rfl (by decide),
   (on_pointer_button_requests (example_frame 100 75) BTN_LEFT WLR_BUTTON_PRESSED).2.2.2.2
      rfl rfl (by decide),
   (on_pointer_button_requests (example_frame 2 75) BTN_LEFT WLR_BUTTON_RELEASED).1 rfl,
   (on_pointer_button_requests (example_frame 2 2) BTN_LEFT WLR_BUTTON_RELEASED).1 rfl⟩

/-- C10: for a content geometry of width and height at least 1,
`calculate_resize_size` applied to the size of `expand_wm_geometry(geometry)`
gives back the original width and height; `expand_wm_geometry` shifts the
origin by exactly `get_offset()`, that is by `(-thickness, -titlebar)`; and
`calculate_resize_size` always returns a width and a height of at least 1. -/
theorem frame_size_round_trip (s : simple_decoration_surface) (g : wf_geometry) :
    (1 ≤ g.width → 1 ≤ g.height →
      s.calculate_resize_size (s.expand_wm_geometry g).width (s.expand_wm_geometry g).height =
        (g.width, g.height)) ∧
    (s.get_offset = { x := -s.current_thickness, y := -s.current_titlebar } ∧
      (s.expand_wm_geometry g).x = g.x + s.get_offset.x ∧
      (s.expand_wm_geometry g).y = g.y + s.get_offset.y) ∧
    (∀ w h : Int, 1 ≤ (s.calculate_resize_size w h).1 ∧ 1 ≤ (s.calculate_resize_size w h).2) := by
  refine ⟨?_, ⟨rfl, ?_, ?_⟩, ?_⟩
  · intro hw hh
    simp only [simple_decoration_surface.calculate_resize_size,
      simple_decoration_surface.expand_wm_geometry]
    rw [Prod.mk.injEq]
    constructor
    · rw [max_eq_left (by omega)]; omega
    · rw [max_eq_left (by omega)]; omega
  · simp only [simple_decoration_surface.expand_wm_geometry,
      simple_decoration_surface.get_offset]; omega
  · simp only [simple_decoration_surface.expand_wm_geometry,
      simple_decoration_surface.get_offset]; omega
  · intro w h
    simp only [simple_decoration_surface.calculate_resize_size]
    exact ⟨le_max_right _ _, le_max_right _ _⟩

/-- C10, at border thickness 5, title bar 25 and a content geometry
(100, 100, 640, 480). -/
theorem frame_size_round_trip_witness :
    (1 ≤ (640 : Int) ∧ 1 ≤ (480 : Int)) ∧
    (example_frame 0 0).calculate_resize_size
        ((example_frame 0 0).expand_wm_geometry ⟨100, 100, 640, 480⟩).width
        ((example_frame 0 0).expand_wm_geometry ⟨100, 100, 640, 480⟩).height = (640, 480) :=
  ⟨⟨by decide, by decide⟩,
   (frame_size_round_trip (example_frame 0 0) ⟨100, 100, 640, 480⟩).1 (by decide) (by decide)⟩

/-! ## Theorems: binary64 rounding -/

/-- Rounding to nearest gives the floor or the floor plus one. -/
theorem round_half_even_cases (q : ℚ) :
    round_half_even q = ⌊q⌋ ∨ round_half_even q = ⌊q⌋ + 1 := by
  unfold round_half_even
  split_ifs <;> simp

/-- Rounding to nearest leaves an integer alone. -/
theorem round_half_even_intCast (k : Int) : round_half_even (k : ℚ) = k := by
  unfold round_half_even
  simp

/-- Rounding to nearest does not go below an integer lower bound. -/
theorem int_le_round_half_even (q : ℚ) (K : Int) (h : (K : ℚ) ≤ q) : K ≤ round_half_even q := by
  have h1 : K ≤ ⌊q⌋ := Int.le_floor.mpr h
  rcases round_half_even_cases q with e | e <;> omega

/-- Rounding to nearest does not go above an integer upper bound. -/
theorem round_half_even_le_int (q : ℚ) (K : Int) (h : q ≤ (K : ℚ)) : round_half_even q ≤ K := by
  rcases h.lt_or_eq with h | h
  · have h1 : ⌊q⌋ < K := Int.floor_lt.mpr h
    rcases round_half_even_cases q with e | e <;> omega
  · rw [h, round_half_even_intCast]

/-- Rounding to nearest moves a value by at most one half. -/
theorem abs_round_half_even_sub_le (q : ℚ) : |((round_half_even q : Int) : ℚ) - q| ≤ 1 / 2 := by
  have h1 := Int.floor_le q
  have h2 := Int.lt_floor_add_one q
  unfold round_half_even
  rw [abs_le]
  split_ifs with a b c
  · constructor <;> linarith
  · push_cast; constructor <;> linarith
  · constructor <;> linarith
  · push_cast; constructor <;> linarith

/-- An integer within less than one half of a value is its rounding. -/
theorem round_half_even_unique (q : ℚ) (k : Int) (h : |(k : ℚ) - q| < 1 / 2) :
    round_half_even q = k := by
  rw [abs_lt] at h
  have h1 := Int.floor_le q
  have h2 := Int.lt_floor_add_one q
  have hk : k = ⌊q⌋ ∨ k = ⌊q⌋ + 1 := by
    have a1 : ((k : ℚ)) < ((⌊q⌋ + 2 : Int) : ℚ) := by push_cast; linarith
    have a2 : (((⌊q⌋ - 1 : Int)) : ℚ) < (k : ℚ) := by push_cast; linarith
    have a1' : k < ⌊q⌋ + 2 := by exact_mod_cast a1
    have a2' : ⌊q⌋ - 1 < k := by exact_mod_cast a2
    omega
  unfold round_half_even
  rcases hk with hk | hk
  · have : q - ⌊q⌋ < 1 / 2 := by
      have : (k : ℚ) = (⌊q⌋ : ℚ) := by exact_mod_cast hk
      linarith
    rw [if_pos this, hk]
  · have e : (k : ℚ) = (⌊q⌋ : ℚ) + 1 := by rw [hk]; push_cast; rfl
    have a : 1 / 2 < q - ⌊q⌋ := by linarith
    have b : ¬ q - ⌊q⌋ < 1 / 2 := by linarith
    rw [if_neg b, if_pos a, hk]

/-- The scaling exponent of `round_double` puts the magnitude in `[2^52, 2^53)`. -/
theorem binade (q : ℚ) (hq : q ≠ 0) :
    (2 : ℚ) ^ (Int.log 2 |q| - 52) * 2 ^ (52 : ℕ) ≤ |q| ∧
    |q| < (2 : ℚ) ^ (Int.log 2 |q| - 52) * 2 ^ (53 : ℕ) := by
  have hpos : 0 < |q| := abs_pos.mpr hq
  have h1 := Int.zpow_log_le_self (b := 2) (by norm_num) hpos
  have h2 := Int.lt_zpow_succ_log_self (b := 2) (by norm_num) |q|
  simp only [Nat.cast_ofNat] at h1 h2
  have e1 : (2 : ℚ) ^ (Int.log 2 |q| - 52) * 2 ^ (52 : ℕ) = 2 ^ Int.log 2 |q| := by
    rw [← zpow_natCast, ← zpow_add₀ (by norm_num : (2 : ℚ) ≠ 0)]
    congr 1; simp
  have e2 : (2 : ℚ) ^ (Int.log 2 |q| - 52) * 2 ^ (53 : ℕ) = 2 ^ (Int.log 2 |q| + 1) := by
    rw [← zpow_natCast, ← zpow_add₀ (by norm_num : (2 : ℚ) ≠ 0)]
    congr 1; push_cast; ring
  rw [e1, e2]
  exact ⟨h1, h2⟩

/-- The relative error of `round_double` is at most `2^-53`. -/
theorem abs_round_double_sub_le (q : ℚ) : |round_double q - q| ≤ |q| / 2 ^ (53 : ℕ) := by
  unfold round_double
  split_ifs with hq
  · simp [hq]
  · obtain ⟨hb, _⟩ := binade q hq
    set pe : ℚ := (2 : ℚ) ^ (Int.log 2 |q| - 52) with hpe
    have hpos : 0 < pe := zpow_pos (by norm_num) _
    have h := abs_round_half_even_sub_le (q / pe)
    have e : (round_half_even (q / pe) : ℚ) * pe - q = ((round_half_even (q / pe) : ℚ) - q / pe) * pe := by
      field_simp
    rw [e, abs_mul, abs_of_pos hpos]
    have : |(round_half_even (q / pe) : ℚ) - q / pe| * pe ≤ 1 / 2 * pe :=
      mul_le_mul_of_nonneg_right h hpos.le
    rw [le_div_iff₀ (by positivity)]
    calc |(round_half_even (q / pe) : ℚ) - q / pe| * pe * 2 ^ 53
        ≤ 1 / 2 * pe * 2 ^ 53 := by
          exact mul_le_mul_of_nonneg_right this (by positivity)
      _ = pe * 2 ^ 52 := by ring
      _ ≤ |q| := hb

/-- Zero is a double. -/
theorem round_double_zero : round_double 0 = 0 := by simp [round_double]

/-- The scaling exponent is non-positive below `2^53`. -/
theorem exponent_nonpos (q : ℚ) (hq : q ≠ 0) (h : |q| < 2 ^ (53 : ℕ)) :
    Int.log 2 |q| - 52 ≤ 0 := by
  have hpos : 0 < |q| := abs_pos.mpr hq
  have : Int.log 2 |q| < 53 := by
    rw [← Int.lt_zpow_iff_log_lt (by norm_num) hpos]
    have e53 : ((2 : ℕ) : ℚ) ^ (53 : ℤ) = (2 : ℚ) ^ (53 : ℕ) := by norm_num
    rw [e53]; exact h
  omega

/-- The scaling exponent is positive from `2^53` on. -/
theorem exponent_pos (q : ℚ) (h : 2 ^ (53 : ℕ) ≤ |q|) :
    0 < Int.log 2 |q| - 52 := by
  have hpos : 0 < |q| := lt_of_lt_of_le (by positivity) h
  have : (53 : ℤ) ≤ Int.log 2 |q| := by
    rw [← Int.zpow_le_iff_le_log (by norm_num) hpos]
    have e53 : ((2 : ℕ) : ℚ) ^ (53 : ℤ) = (2 : ℚ) ^ (53 : ℕ) := by norm_num
    rw [e53]; exact h
  omega

/-- An integer below `2^53` in magnitude is a double. -/
theorem round_double_intCast (n : Int) (h : |n| < 2 ^ (53 : ℕ)) : round_double (n : ℚ) = n := by
  by_cases hn : (n : ℚ) = 0
  · rw [hn, round_double_zero]
  · have habs : |(n : ℚ)| < 2 ^ (53 : ℕ) := by exact_mod_cast h
    have he := exponent_nonpos (n : ℚ) hn habs
    obtain ⟨j, hj⟩ : ∃ j : ℕ, Int.log 2 |(n : ℚ)| - 52 = -(j : ℤ) :=
      ⟨(-(Int.log 2 |(n : ℚ)| - 52)).toNat, by omega⟩
    unfold round_double
    rw [if_neg hn, hj, zpow_neg, zpow_natCast]
    have e : (n : ℚ) / ((2 : ℚ) ^ j)⁻¹ = ((n * 2 ^ j : Int) : ℚ) := by
      push_cast; field_simp
    rw [e, round_half_even_intCast]
    push_cast
    field_simp

/-- Rounding to binary64 does not go above an integer upper bound below `2^53`. -/
theorem round_double_le_int (z : ℚ) (k : Int) (hk : |k| < 2 ^ (53 : ℕ)) (h : z ≤ (k : ℚ)) :
    round_double z ≤ (k : ℚ) := by
  by_cases hz : z = 0
  · rw [hz, round_double_zero]; rw [hz] at h; exact h
  · obtain ⟨hb1, hb2⟩ := binade z hz
    have hkq : |(k : ℚ)| < 2 ^ (53 : ℕ) := by exact_mod_cast hk
    unfold round_double
    rw [if_neg hz]
    set e : ℤ := Int.log 2 |z| - 52 with he
    have hpos : (0 : ℚ) < 2 ^ e := zpow_pos (by norm_num) _
    rcases le_or_lt e 0 with hle | hgt
    · obtain ⟨j, hj⟩ : ∃ j : ℕ, e = -(j : ℤ) := ⟨(-e).toNat, by omega⟩
      have hpe : (2 : ℚ) ^ e = ((2 : ℚ) ^ j)⁻¹ := by rw [hj, zpow_neg, zpow_natCast]
      have hK : z / 2 ^ e ≤ ((k * 2 ^ j : Int) : ℚ) := by
        rw [hpe]; push_cast
        rw [div_inv_eq_mul]
        exact mul_le_mul_of_nonneg_right h (by positivity)
      have := round_half_even_le_int _ _ hK
      have hc : ((round_half_even (z / 2 ^ e) : Int) : ℚ) ≤ ((k * 2 ^ j : Int) : ℚ) := by
        exact_mod_cast this
      calc ((round_half_even (z / 2 ^ e) : Int) : ℚ) * 2 ^ e
          ≤ ((k * 2 ^ j : Int) : ℚ) * 2 ^ e := mul_le_mul_of_nonneg_right hc hpos.le
        _ = k := by rw [hpe]; push_cast; field_simp
    · -- |z| ≥ 2^53 > |k| ≥ z, so z is negative
      have h2 : (2 : ℚ) ≤ 2 ^ e := by
        have : (2 : ℚ) ^ (1 : ℤ) ≤ 2 ^ e := zpow_le_zpow_right₀ (by norm_num) (by omega)
        simpa using this
      have hbig : (2 : ℚ) ^ (53 : ℕ) ≤ |z| := by
        calc (2 : ℚ) ^ (53 : ℕ) = 2 * 2 ^ (52 : ℕ) := by norm_num
          _ ≤ 2 ^ e * 2 ^ (52 : ℕ) := mul_le_mul_of_nonneg_right h2 (by positivity)
          _ ≤ |z| := hb1
      have hkk := abs_lt.mp hkq
      have hzneg : z < 0 := by
        by_contra hc
        push_neg at hc
        rw [abs_of_nonneg hc] at hbig
        linarith
      rw [abs_of_neg hzneg] at hb1
      have hm : z / 2 ^ e ≤ ((-(2 ^ (52 : ℕ)) : Int) : ℚ) := by
        rw [div_le_iff₀ hpos]; push_cast; linarith
      have := round_half_even_le_int _ _ hm
      have hc : ((round_half_even (z / 2 ^ e) : Int) : ℚ) ≤ ((-(2 ^ (52 : ℕ)) : Int) : ℚ) := by
        exact_mod_cast this
      have : ((round_half_even (z / 2 ^ e) : Int) : ℚ) * 2 ^ e ≤ ((-(2 ^ (52 : ℕ)) : Int) : ℚ) * 2 ^ e :=
        mul_le_mul_of_nonneg_right hc hpos.le
      push_cast at this
      norm_num at hkk this
      linarith

/-- Rounding to binary64 does not go below an integer lower bound below `2^53`. -/
theorem int_le_round_double (z : ℚ) (k : Int) (hk : |k| < 2 ^ (53 : ℕ)) (h : (k : ℚ) ≤ z) :
    (k : ℚ) ≤ round_double z := by
  by_cases hz : z = 0
  · rw [hz, round_double_zero]; rw [hz] at h; exact h
  · obtain ⟨hb1, hb2⟩ := binade z hz
    have hkq : |(k : ℚ)| < 2 ^ (53 : ℕ) := by exact_mod_cast hk
    unfold round_double
    rw [if_neg hz]
    set e : ℤ := Int.log 2 |z| - 52 with he
    have hpos : (0 : ℚ) < 2 ^ e := zpow_pos (by norm_num) _
    rcases le_or_lt e 0 with hle | hgt
    · obtain ⟨j, hj⟩ : ∃ j : ℕ, e = -(j : ℤ) := ⟨(-e).toNat, by omega⟩
      have hpe : (2 : ℚ) ^ e = ((2 : ℚ) ^ j)⁻¹ := by rw [hj, zpow_neg, zpow_natCast]
      have hK : ((k * 2 ^ j : Int) : ℚ) ≤ z / 2 ^ e := by
        rw [hpe]; push_cast
        rw [div_inv_eq_mul]
        exact mul_le_mul_of_nonneg_right h (by positivity)
      have := int_le_round_half_even _ _ hK
      have hc : ((k * 2 ^ j : Int) : ℚ) ≤ ((round_half_even (z / 2 ^ e) : Int) : ℚ) := by
        exact_mod_cast this
      calc (k : ℚ) = ((k * 2 ^ j : Int) : ℚ) * 2 ^ e := by rw [hpe]; push_cast; field_simp
        _ ≤ ((round_half_even (z / 2 ^ e) : Int) : ℚ) * 2 ^ e :=
            mul_le_mul_of_nonneg_right hc hpos.le
    · have h2 : (2 : ℚ) ≤ 2 ^ e := by
        have : (2 : ℚ) ^ (1 : ℤ) ≤ 2 ^ e := zpow_le_zpow_right₀ (by norm_num) (by omega)
        simpa using this
      have hbig : (2 : ℚ) ^ (53 : ℕ) ≤ |z| := by
        calc (2 : ℚ) ^ (53 : ℕ) = 2 * 2 ^ (52 : ℕ) := by norm_num
          _ ≤ 2 ^ e * 2 ^ (52 : ℕ) := mul_le_mul_of_nonneg_right h2 (by positivity)
          _ ≤ |z| := hb1
      have hkk := abs_lt.mp hkq
      have hzpos : 0 < z := by
        by_contra hc
        push_neg at hc
        rw [abs_of_nonpos hc] at hbig
        linarith
      rw [abs_of_pos hzpos] at hb1
      have hm : (((2 ^ (52 : ℕ)) : Int) : ℚ) ≤ z / 2 ^ e := by
        rw [le_div_iff₀ hpos]; push_cast; linarith
      have := int_le_round_half_even _ _ hm
      have hc : (((2 ^ (52 : ℕ)) : Int) : ℚ) ≤ ((round_half_even (z / 2 ^ e) : Int) : ℚ) := by
        exact_mod_cast this
      have : (((2 ^ (52 : ℕ)) : Int) : ℚ) * 2 ^ e ≤ ((round_half_even (z / 2 ^ e) : Int) : ℚ) * 2 ^ e :=
        mul_le_mul_of_nonneg_right hc hpos.le
      push_cast at this
      norm_num at hkk this
      linarith

/-- Evaluation of `round_double` from its exponent and significand. -/
theorem round_double_eq (q : ℚ) (e k : Int)
    (h1 : (2 : ℚ) ^ e * 2 ^ (52 : ℕ) ≤ |q|) (h2 : |q| < (2 : ℚ) ^ e * 2 ^ (53 : ℕ))
    (h3 : |(k : ℚ) - q / 2 ^ e| < 1 / 2) : round_double q = (k : ℚ) * 2 ^ e := by
  have hpe : (0 : ℚ) < 2 ^ e := zpow_pos (by norm_num) _
  have hpos : 0 < |q| := lt_of_lt_of_le (by positivity) h1
  have hq : q ≠ 0 := abs_pos.mp hpos
  have hlog : Int.log 2 |q| = e + 52 := by
    apply le_antisymm
    · have : Int.log 2 |q| < e + 53 := by
        rw [← Int.lt_zpow_iff_log_lt (by norm_num) hpos]
        rw [zpow_add₀ (by norm_num)]
        have e53 : ((2 : ℕ) : ℚ) ^ (53 : ℤ) = (2 : ℚ) ^ (53 : ℕ) := by norm_num
        rw [e53, Nat.cast_ofNat]; exact h2
      omega
    · rw [← Int.zpow_le_iff_le_log (by norm_num) hpos]
      rw [zpow_add₀ (by norm_num)]
      have e52 : ((2 : ℕ) : ℚ) ^ (52 : ℤ) = (2 : ℚ) ^ (52 : ℕ) := by norm_num
      rw [e52, Nat.cast_ofNat]; exact h1
  unfold round_double
  rw [if_neg hq, hlog]
  have : e + 52 - 52 = e := by omega
  rw [this, round_half_even_unique _ k h3]

/-- Rounding to nearest is monotone. -/
theorem round_half_even_mono (p q : ℚ) (h : p ≤ q) : round_half_even p ≤ round_half_even q := by
  have hf : ⌊p⌋ ≤ ⌊q⌋ := Int.floor_mono h
  rcases hf.lt_or_eq with hlt | heq
  · have h1 : round_half_even p ≤ ⌊p⌋ + 1 := by
      rcases round_half_even_cases p with e | e <;> omega
    have h2 : ⌊q⌋ ≤ round_half_even q := by
      rcases round_half_even_cases q with e | e <;> omega
    omega
  · unfold round_half_even
    rw [← heq]
    have hr : p - ⌊p⌋ ≤ q - ⌊p⌋ := by linarith
    split_ifs <;> first | omega | (exfalso; linarith)

/-- Rounding to binary64 keeps a non-negative value non-negative. -/
theorem round_double_nonneg (z : ℚ) (h : 0 ≤ z) : 0 ≤ round_double z := by
  have := int_le_round_double z 0 (by norm_num) (by simpa using h)
  simpa using this

/-- Rounding to binary64 keeps a non-positive value non-positive. -/
theorem round_double_nonpos (z : ℚ) (h : z ≤ 0) : round_double z ≤ 0 := by
  have := round_double_le_int z 0 (by norm_num) (by simpa using h)
  simpa using this

/-- Rounding to binary64 is monotone on positive values. -/
theorem round_double_mono_pos (x y : ℚ) (hx : 0 < x) (h : x ≤ y) :
    round_double x ≤ round_double y := by
  have hy : 0 < y := lt_of_lt_of_le hx h
  obtain ⟨hx1, hx2⟩ := binade x hx.ne'
  obtain ⟨hy1, hy2⟩ := binade y hy.ne'
  rw [abs_of_pos hx] at hx1 hx2
  rw [abs_of_pos hy] at hy1 hy2
  have hlog : Int.log 2 |x| ≤ Int.log 2 |y| := by
    rw [abs_of_pos hx, abs_of_pos hy]; exact Int.log_mono_right hx h
  unfold round_double
  rw [if_neg hx.ne', if_neg hy.ne']
  rw [abs_of_pos hx, abs_of_pos hy] at *
  set ex : ℤ := Int.log 2 x - 52 with hex
  set ey : ℤ := Int.log 2 y - 52 with hey
  have hpx : (0 : ℚ) < 2 ^ ex := zpow_pos (by norm_num) _
  have hpy : (0 : ℚ) < 2 ^ ey := zpow_pos (by norm_num) _
  rcases (show ex ≤ ey by omega).lt_or_eq with hlt | heq
  · have a1 : x / 2 ^ ex ≤ (((2 : Int) ^ (53 : ℕ) : Int) : ℚ) := by
      rw [div_le_iff₀ hpx]; push_cast; linarith
    have a2 : (((2 : Int) ^ (52 : ℕ) : Int) : ℚ) ≤ y / 2 ^ ey := by
      rw [le_div_iff₀ hpy]; push_cast; linarith
    have b1 : ((round_half_even (x / 2 ^ ex) : Int) : ℚ) ≤ (((2 : Int) ^ (53 : ℕ) : Int) : ℚ) := by
      exact_mod_cast round_half_even_le_int _ _ a1
    have b2 : (((2 : Int) ^ (52 : ℕ) : Int) : ℚ) ≤ ((round_half_even (y / 2 ^ ey) : Int) : ℚ) := by
      exact_mod_cast int_le_round_half_even _ _ a2
    have hstep : (2 : ℚ) ^ ex * 2 ≤ 2 ^ ey := by
      have : (2 : ℚ) ^ (ex + 1) ≤ 2 ^ ey := zpow_le_zpow_right₀ (by norm_num) (by omega)
      rw [zpow_add₀ (by norm_num)] at this
      simpa using this
    push_cast at b1 b2
    calc ((round_half_even (x / 2 ^ ex) : Int) : ℚ) * 2 ^ ex
        ≤ 2 ^ (53 : ℕ) * 2 ^ ex := mul_le_mul_of_nonneg_right b1 hpx.le
      _ = 2 ^ (52 : ℕ) * (2 ^ ex * 2) := by ring
      _ ≤ 2 ^ (52 : ℕ) * 2 ^ ey := mul_le_mul_of_nonneg_left hstep (by positivity)
      _ ≤ ((round_half_even (y / 2 ^ ey) : Int) : ℚ) * 2 ^ ey :=
          mul_le_mul_of_nonneg_right b2 hpy.le
  · rw [← heq]
    have : x / 2 ^ ex ≤ y / 2 ^ ex := div_le_div_of_nonneg_right h hpx.le
    have := round_half_even_mono _ _ this
    exact mul_le_mul_of_nonneg_right (by exact_mod_cast this) hpx.le

/-- Rounding to binary64 is monotone on negative values. -/
theorem round_double_mono_neg (x y : ℚ) (hy : y < 0) (h : x ≤ y) :
    round_double x ≤ round_double y := by
  have hx : x < 0 := lt_of_le_of_lt h hy
  obtain ⟨hx1, hx2⟩ := binade x hx.ne
  obtain ⟨hy1, hy2⟩ := binade y hy.ne
  have hlog : Int.log 2 |y| ≤ Int.log 2 |x| := by
    apply Int.log_mono_right (abs_pos.mpr hy.ne)
    rw [abs_of_neg hx, abs_of_neg hy]; linarith
  unfold round_double
  rw [if_neg hx.ne, if_neg hy.ne]
  set ex : ℤ := Int.log 2 |x| - 52 with hex
  set ey : ℤ := Int.log 2 |y| - 52 with hey
  rw [abs_of_neg hx] at hx1 hx2
  rw [abs_of_neg hy] at hy1 hy2
  have hpx : (0 : ℚ) < 2 ^ ex := zpow_pos (by norm_num) _
  have hpy : (0 : ℚ) < 2 ^ ey := zpow_pos (by norm_num) _
  rcases (show ey ≤ ex by omega).lt_or_eq with hlt | heq
  · have a1 : x / 2 ^ ex ≤ ((-(2 : Int) ^ (52 : ℕ) : Int) : ℚ) := by
      rw [div_le_iff₀ hpx]; push_cast; linarith
    have a2 : ((-(2 : Int) ^ (53 : ℕ) : Int) : ℚ) ≤ y / 2 ^ ey := by
      rw [le_div_iff₀ hpy]; push_cast; linarith
    have b1 : ((round_half_even (x / 2 ^ ex) : Int) : ℚ) ≤ ((-(2 : Int) ^ (52 : ℕ) : Int) : ℚ) := by
      exact_mod_cast round_half_even_le_int _ _ a1
    have b2 : ((-(2 : Int) ^ (53 : ℕ) : Int) : ℚ) ≤ ((round_half_even (y / 2 ^ ey) : Int) : ℚ) := by
      exact_mod_cast int_le_round_half_even _ _ a2
    have hstep : (2 : ℚ) ^ ey * 2 ≤ 2 ^ ex := by
      have : (2 : ℚ) ^ (ey + 1) ≤ 2 ^ ex := zpow_le_zpow_right₀ (by norm_num) (by omega)
      rw [zpow_add₀ (by norm_num)] at this
      simpa using this
    push_cast at b1 b2
    calc ((round_half_even (x / 2 ^ ex) : Int) : ℚ) * 2 ^ ex
        ≤ -(2 ^ (52 : ℕ)) * 2 ^ ex := mul_le_mul_of_nonneg_right b1 hpx.le
      _ ≤ -(2 ^ (52 : ℕ)) * (2 ^ ey * 2) := by
          have : (2 : ℚ) ^ (52 : ℕ) * (2 ^ ey * 2) ≤ 2 ^ (52 : ℕ) * 2 ^ ex :=
            mul_le_mul_of_nonneg_left hstep (by positivity)
          linarith
      _ = -(2 ^ (53 : ℕ)) * 2 ^ ey := by ring
      _ ≤ ((round_half_even (y / 2 ^ ey) : Int) : ℚ) * 2 ^ ey :=
          mul_le_mul_of_nonneg_right b2 hpy.le
  · rw [heq]
    have : x / 2 ^ ex ≤ y / 2 ^ ex := div_le_div_of_nonneg_right h hpx.le
    have := round_half_even_mono _ _ this
    exact mul_le_mul_of_nonneg_right (by exact_mod_cast this) hpx.le

/-- Rounding to binary64 is monotone. -/
theorem round_double_mono (x y : ℚ) (h : x ≤ y) : round_double x ≤ round_double y := by
  rcases lt_trichotomy 0 x with hx | hx | hx
  · exact round_double_mono_pos x y hx h
  · subst hx
    rw [round_double_zero]; exact round_double_nonneg y h
  · rcases lt_or_le y 0 with hy | hy
    · exact round_double_mono_neg x y hy h
    · exact (round_double_nonpos x hx.le).trans (round_double_nonneg y hy)

/-- A rounded value is a double: rounding it again changes nothing. -/
theorem round_double_idem (x : ℚ) : round_double (round_double x) = round_double x := by
  by_cases hx : x = 0
  · rw [hx, round_double_zero, round_double_zero]
  · obtain ⟨h1, h2⟩ := binade x hx
    have hdef : round_double x =
        (round_half_even (x / 2 ^ (Int.log 2 |x| - 52)) : ℚ) * 2 ^ (Int.log 2 |x| - 52) := by
      unfold round_double; rw [if_neg hx]
    set e : ℤ := Int.log 2 |x| - 52 with he
    set k : Int := round_half_even (x / 2 ^ e) with hk
    have hpe : (0 : ℚ) < 2 ^ e := zpow_pos (by norm_num) _
    have hm1 : (2 : ℚ) ^ (52 : ℕ) ≤ |x / 2 ^ e| := by
      rw [abs_div, abs_of_pos hpe, le_div_iff₀ hpe]; linarith
    have hm2 : |x / 2 ^ e| < (2 : ℚ) ^ (53 : ℕ) := by
      rw [abs_div, abs_of_pos hpe, div_lt_iff₀ hpe]; linarith
    -- 2^52 ≤ |k| ≤ 2^53
    have hk1 : (2 : Int) ^ (52 : ℕ) ≤ |k| := by
      rcases le_or_lt 0 (x / 2 ^ e) with hs | hs
      · rw [abs_of_nonneg hs] at hm1
        have : (((2 : Int) ^ (52 : ℕ) : Int) : ℚ) ≤ x / 2 ^ e := by push_cast; exact hm1
        have := int_le_round_half_even _ _ this
        exact this.trans (le_abs_self _)
      · rw [abs_of_neg hs] at hm1
        have : x / 2 ^ e ≤ ((-(2 : Int) ^ (52 : ℕ) : Int) : ℚ) := by push_cast; linarith
        have := round_half_even_le_int _ _ this
        have h3 := neg_le_abs k
        omega
    have hk2 : |k| ≤ (2 : Int) ^ (53 : ℕ) := by
      rw [abs_lt] at hm2
      have a : x / 2 ^ e ≤ (((2 : Int) ^ (53 : ℕ) : Int) : ℚ) := by push_cast; linarith
      have b : ((-(2 : Int) ^ (53 : ℕ) : Int) : ℚ) ≤ x / 2 ^ e := by push_cast; linarith
      have a' := round_half_even_le_int _ _ a
      have b' := int_le_round_half_even _ _ b
      rw [abs_le]; constructor <;> omega
    rw [hdef]
    have hk1q : (2 : ℚ) ^ (52 : ℕ) ≤ |(k : ℚ)| := by exact_mod_cast hk1
    have hk2q : |(k : ℚ)| ≤ (2 : ℚ) ^ (53 : ℕ) := by exact_mod_cast hk2
    rcases hk2.lt_or_eq with hlt | heq
    · have hltq : |(k : ℚ)| < (2 : ℚ) ^ (53 : ℕ) := by exact_mod_cast hlt
      apply round_double_eq _ e k
      · rw [abs_mul, abs_of_pos hpe]; nlinarith
      · rw [abs_mul, abs_of_pos hpe]; nlinarith
      · rw [mul_div_assoc, div_self hpe.ne', mul_one, sub_self, abs_zero]; norm_num
    · -- |k| = 2^53 : the value is ± 2^(e+53)
      have hpe1 : (2 : ℚ) ^ (e + 1) = 2 ^ e * 2 := by
        rw [zpow_add₀ (by norm_num)]; simp
      have hc : (0 : ℚ) < 2 ^ (e + 1) := zpow_pos (by norm_num) _
      rcases abs_eq (by positivity : (0 : Int) ≤ 2 ^ (53 : ℕ)) |>.mp heq with hkv | hkv
      · have hkq : (k : ℚ) = 2 ^ (53 : ℕ) := by exact_mod_cast hkv
        have hval : (k : ℚ) * 2 ^ e = (((2 : Int) ^ (52 : ℕ) : Int) : ℚ) * 2 ^ (e + 1) := by
          rw [hkq, hpe1]; push_cast; ring
        have hv : (0 : ℚ) < (((2 : Int) ^ (52 : ℕ) : Int) : ℚ) * 2 ^ (e + 1) := by positivity
        have hcast : (((2 : Int) ^ (52 : ℕ) : Int) : ℚ) = 2 ^ (52 : ℕ) := by push_cast; rfl
        rw [hval]
        apply round_double_eq _ (e + 1) _
        · rw [abs_of_pos hv, hcast]; linarith
        · rw [abs_of_pos hv, hcast]; nlinarith
        · rw [mul_div_assoc, div_self hc.ne', mul_one, sub_self, abs_zero]; norm_num
      · have hkq : (k : ℚ) = -(2 ^ (53 : ℕ)) := by exact_mod_cast hkv
        have hval : (k : ℚ) * 2 ^ e = ((-(2 : Int) ^ (52 : ℕ) : Int) : ℚ) * 2 ^ (e + 1) := by
          rw [hkq, hpe1]; push_cast; ring
        have hcast : ((-(2 : Int) ^ (52 : ℕ) : Int) : ℚ) = -(2 ^ (52 : ℕ)) := by push_cast; rfl
        have hv : ((-(2 : Int) ^ (52 : ℕ) : Int) : ℚ) * 2 ^ (e + 1) < 0 := by
          rw [hcast]
          have : (0 : ℚ) < 2 ^ (52 : ℕ) * 2 ^ (e + 1) := by positivity
          linarith
        rw [hval]
        apply round_double_eq _ (e + 1) _
        · rw [abs_of_neg hv, hcast]; linarith
        · rw [abs_of_neg hv, hcast]; nlinarith
        · rw [mul_div_assoc, div_self hc.ne', mul_one, sub_self, abs_zero]; norm_num

/-- Evaluation of `round_double` at a positive value. -/
theorem round_double_eq_pos (q : ℚ) (e k : Int) (hq : 0 < q)
    (h1 : (2 : ℚ) ^ e * 2 ^ (52 : ℕ) ≤ q) (h2 : q < (2 : ℚ) ^ e * 2 ^ (53 : ℕ))
    (h3 : (k : ℚ) - 1 / 2 < q / 2 ^ e) (h4 : q / 2 ^ e < (k : ℚ) + 1 / 2) :
    round_double q = (k : ℚ) * 2 ^ e := by
  apply round_double_eq q e k
  · rw [abs_of_pos hq]; exact h1
  · rw [abs_of_pos hq]; exact h2
  · rw [abs_lt]; constructor <;> linarith

/-- Evaluation of `round_double` at a negative value. -/
theorem round_double_eq_neg (q : ℚ) (e k : Int) (hq : q < 0)
    (h1 : (2 : ℚ) ^ e * 2 ^ (52 : ℕ) ≤ -q) (h2 : -q < (2 : ℚ) ^ e * 2 ^ (53 : ℕ))
    (h3 : (k : ℚ) - 1 / 2 < q / 2 ^ e) (h4 : q / 2 ^ e < (k : ℚ) + 1 / 2) :
    round_double q = (k : ℚ) * 2 ^ e := by
  apply round_double_eq q e k
  · rw [abs_of_neg hq]; exact h1
  · rw [abs_of_neg hq]; exact h2
  · rw [abs_lt]; constructor <;> linarith

/-! ## Theorems: the `double` operations of the helper -/

/-- An integer between `-2^53` and `2^53`, in the form the rounding lemmas
take. -/
theorem int_abs_lt (k : Int) (h1 : -9007199254740992 < k) (h2 : k < 9007199254740992) :
    |k| < 2 ^ (53 : ℕ) := by
  rw [abs_lt]; constructor <;> norm_num <;> omega

/-- The conversion to `double` of an integer below `2^53` in magnitude is
exact. -/
theorem double_of_int_eq (n : Int) (h1 : -9007199254740992 < n) (h2 : n < 9007199254740992) :
    double_of_int n = (n : ℚ) :=
  round_double_intCast n (int_abs_lt n h1 h2)

/-- The anchor `1.0 * a / w` of integers below `2^53` in magnitude is the
double nearest to the exact quotient. -/
theorem anchor_eq_round (a w : Int) (ha1 : -9007199254740992 < a) (ha2 : a < 9007199254740992)
    (hw1 : -9007199254740992 < w) (hw2 : w < 9007199254740992) :
    double_div (double_mul 1 (double_of_int a)) (double_of_int w) =
      round_double ((a : ℚ) / (w : ℚ)) := by
  rw [double_of_int_eq a ha1 ha2, double_of_int_eq w hw1 hw2]
  unfold double_div double_mul
  rw [one_mul, round_double_intCast a (int_abs_lt a ha1 ha2)]

/-- The anchor of a point inside the box lies in [0, 1]. -/
theorem anchor_in_unit (a w : Int) (ha : 0 ≤ a) (haw : a ≤ w) (hw : 0 < w) :
    0 ≤ double_div (double_mul 1 (double_of_int a)) (double_of_int w) ∧
    double_div (double_mul 1 (double_of_int a)) (double_of_int w) ≤ 1 := by
  unfold double_div double_mul double_of_int
  rw [one_mul, round_double_idem]
  have hA : 0 ≤ round_double (a : ℚ) := round_double_nonneg _ (by exact_mod_cast ha)
  have hW : (1 : ℚ) ≤ round_double (w : ℚ) := by
    have := int_le_round_double (w : ℚ) 1 (by norm_num) (by exact_mod_cast hw)
    simpa using this
  have hAW : round_double (a : ℚ) ≤ round_double (w : ℚ) :=
    round_double_mono _ _ (by exact_mod_cast haw)
  have hWpos : (0 : ℚ) < round_double (w : ℚ) := by linarith
  constructor
  · exact round_double_nonneg _ (div_nonneg hA hWpos.le)
  · have := round_double_le_int (round_double (a : ℚ) / round_double (w : ℚ)) 1 (by norm_num)
      (by rw [Int.cast_one]; exact (div_le_one hWpos).mpr hAW)
    simpa using this

/-- Truncation toward zero moves a value by less than one. -/
theorem abs_trunc_sub_lt_one (d : ℚ) : |((trunc d : Int) : ℚ) - d| < 1 := by
  unfold trunc
  split_ifs with h
  · have h1 := Int.floor_le d
    have h2 := Int.lt_floor_add_one d
    rw [abs_lt]; constructor <;> linarith
  · have h1 := Int.le_ceil d
    have h2 := Int.ceil_lt_add_one d
    rw [abs_lt]; constructor <;> linarith

/-- Truncation leaves an integer value alone. -/
theorem trunc_intCast (n : Int) : trunc (n : ℚ) = n := by
  unfold trunc
  split_ifs <;> simp

/-- Truncation does not go below an integer lower bound. -/
theorem int_le_trunc (d : ℚ) (m : Int) (h : (m : ℚ) ≤ d) : m ≤ trunc d := by
  unfold trunc
  have h1 : m ≤ ⌊d⌋ := Int.le_floor.mpr h
  have h2 : ⌊d⌋ ≤ ⌈d⌉ := Int.floor_le_ceil d
  split_ifs <;> omega

/-- Truncation does not go above an integer upper bound. -/
theorem trunc_le_int (d : ℚ) (m : Int) (h : d ≤ (m : ℚ)) : trunc d ≤ m := by
  unfold trunc
  have h1 : ⌈d⌉ ≤ m := Int.ceil_le.mpr h
  have h2 : ⌊d⌋ ≤ ⌈d⌉ := Int.floor_le_ceil d
  split_ifs <;> omega

/-- The coordinate `int(t - px * w)` computed in `double` arithmetic is within
less than one of the exact value of `t - px * w`, for 32-bit `t`, `w` and
result. -/
theorem abs_target_sub_lt_one (px : ℚ) (t w : Int) (ht : is_int t) (hw : is_int w)
    (hn : is_int (trunc (double_sub (double_of_int t) (double_mul px (double_of_int w))))) :
    |((trunc (double_sub (double_of_int t) (double_mul px (double_of_int w))) : Int) : ℚ) -
      ((t : ℚ) - px * (w : ℚ))| < 1 := by
  obtain ⟨ht1, ht2⟩ := ht
  obtain ⟨hw1, hw2⟩ := hw
  rw [double_of_int_eq t (by omega) (by omega), double_of_int_eq w (by omega) (by omega)] at hn ⊢
  unfold double_sub double_mul at hn ⊢
  set P : ℚ := round_double (px * (w : ℚ)) with hP
  set y : ℚ := round_double ((t : ℚ) - P) with hy
  set n : Int := trunc y with hndef
  obtain ⟨hn1, hn2⟩ := hn
  have hny := abs_lt.mp (abs_trunc_sub_lt_one y)
  rw [← hndef] at hny
  rw [abs_lt]
  constructor
  · -- t - px * w < n + 1
    by_contra hc
    push_neg at hc
    have h1 : px * (w : ℚ) ≤ ((t - n - 1 : Int) : ℚ) := by push_cast; linarith
    have h2 : P ≤ ((t - n - 1 : Int) : ℚ) :=
      round_double_le_int _ _ (int_abs_lt _ (by omega) (by omega)) h1
    have h3 : ((n + 1 : Int) : ℚ) ≤ (t : ℚ) - P := by push_cast at h2 ⊢; linarith
    have h4 : ((n + 1 : Int) : ℚ) ≤ y :=
      int_le_round_double _ _ (int_abs_lt _ (by omega) (by omega)) h3
    push_cast at h4
    linarith [hny.1]
  · by_contra hc
    push_neg at hc
    have h1 : ((t - n + 1 : Int) : ℚ) ≤ px * (w : ℚ) := by push_cast; linarith
    have h2 : ((t - n + 1 : Int) : ℚ) ≤ P :=
      int_le_round_double _ _ (int_abs_lt _ (by omega) (by omega)) h1
    have h3 : (t : ℚ) - P ≤ ((n - 1 : Int) : ℚ) := by push_cast at h2 ⊢; linarith
    have h4 : y ≤ ((n - 1 : Int) : ℚ) :=
      round_double_le_int _ _ (int_abs_lt _ (by omega) (by omega)) h3
    push_cast at h4
    linarith [hny.2]

/-- With the anchor of `a` in a box of width `w` and the same width at the
motion, the coordinate `int(t - px * w)` computed in `double` arithmetic is
within one of `t - a`. -/
theorem anchor_target_near (a w t : Int) (hw : 0 < w) (hw2 : w ≤ 2147483647)
    (ha1 : -4294967296 ≤ a) (ha2 : a ≤ 4294967296) (ht : is_int t) :
    |trunc (double_sub (double_of_int t)
        (double_mul (double_div (double_mul 1 (double_of_int a)) (double_of_int w))
          (double_of_int w))) - (t - a)| ≤ 1 := by
  obtain ⟨ht1, ht2⟩ := ht
  rw [anchor_eq_round a w (by omega) (by omega) (by omega) (by omega),
    double_of_int_eq t (by omega) (by omega), double_of_int_eq w (by omega) (by omega)]
  unfold double_sub double_mul
  have hwq : (0 : ℚ) < (w : ℚ) := by exact_mod_cast hw
  have herr := abs_round_double_sub_le ((a : ℚ) / (w : ℚ))
  set px : ℚ := round_double ((a : ℚ) / (w : ℚ)) with hpx
  have haq : |(a : ℚ)| ≤ 4294967296 := by
    rw [abs_le]; constructor
    · exact_mod_cast (by omega : (-4294967296 : Int) ≤ a)
    · exact_mod_cast ha2
  have hprod : |px * (w : ℚ) - (a : ℚ)| < 1 := by
    have e : px * (w : ℚ) - (a : ℚ) = (px - (a : ℚ) / (w : ℚ)) * (w : ℚ) := by
      field_simp
    rw [e, abs_mul, abs_of_pos hwq]
    have h1 : |px - (a : ℚ) / (w : ℚ)| * (w : ℚ) ≤ |(a : ℚ) / (w : ℚ)| / 2 ^ (53 : ℕ) * (w : ℚ) :=
      mul_le_mul_of_nonneg_right herr hwq.le
    have h2 : |(a : ℚ) / (w : ℚ)| / 2 ^ (53 : ℕ) * (w : ℚ) = |(a : ℚ)| / 2 ^ (53 : ℕ) := by
      rw [abs_div, abs_of_pos hwq]; field_simp; ring
    have h3 : |(a : ℚ)| / 2 ^ (53 : ℕ) < 1 := by
      rw [div_lt_one (by positivity)]
      have : (4294967296 : ℚ) < 2 ^ (53 : ℕ) := by norm_num
      linarith
    linarith
  rw [abs_lt] at hprod
  have hP1 : ((a - 1 : Int) : ℚ) ≤ round_double (px * (w : ℚ)) :=
    int_le_round_double _ _ (int_abs_lt _ (by omega) (by omega)) (by push_cast; linarith)
  have hP2 : round_double (px * (w : ℚ)) ≤ ((a + 1 : Int) : ℚ) :=
    round_double_le_int _ _ (int_abs_lt _ (by omega) (by omega)) (by push_cast; linarith)
  have hy1 : ((t - a - 1 : Int) : ℚ) ≤ round_double ((t : ℚ) - round_double (px * (w : ℚ))) :=
    int_le_round_double _ _ (int_abs_lt _ (by omega) (by omega))
      (by push_cast at hP2 ⊢; linarith)
  have hy2 : round_double ((t : ℚ) - round_double (px * (w : ℚ))) ≤ ((t - a + 1 : Int) : ℚ) :=
    round_double_le_int _ _ (int_abs_lt _ (by omega) (by omega))
      (by push_cast at hP1 ⊢; linarith)
  have hn1 := int_le_trunc _ _ hy1
  have hn2 := trunc_le_int _ _ hy2
  rw [abs_le]
  constructor <;> omega

/-- With a zero anchor the coordinate `int(t - 0 * w)` is `t`. -/
theorem target_zero_anchor (t w w' : Int) (ht : is_int t) :
    trunc (double_sub (double_of_int t)
        (double_mul (double_div (double_mul 1 (double_of_int 0)) (double_of_int w'))
          (double_of_int w))) = t := by
  obtain ⟨ht1, ht2⟩ := ht
  rw [double_of_int_eq t (by omega) (by omega)]
  simp [double_sub, double_mul, double_div, double_of_int, round_double_zero,
    round_double_intCast t (int_abs_lt t (by omega) (by omega)), trunc_intCast]

/-- The anchor of 7 in a width of 100, and the coordinate for a motion to 8:
`0.07 * 100` is `7.000000000000001`, so `int(8 - 0.07 * 100)` is 0. -/
theorem target_7_100_8 :
    trunc (double_sub (double_of_int 8)
        (double_mul (double_div (double_mul 1 (double_of_int 7)) (double_of_int 100))
          (double_of_int 100))) = 0 := by
  rw [anchor_eq_round 7 100 (by norm_num) (by norm_num) (by norm_num) (by norm_num),
    double_of_int_eq 8 (by norm_num) (by norm_num),
    double_of_int_eq 100 (by norm_num) (by norm_num)]
  unfold double_sub double_mul
  have e1 : round_double (((7 : Int) : ℚ) / ((100 : Int) : ℚ)) =
      1261007895663739 / 18014398509481984 := by
    rw [round_double_eq_pos _ (-56) 5044031582654956 (by norm_num) (by norm_num)
      (by norm_num) (by norm_num) (by norm_num)]
    norm_num
  have e2 : round_double ((1261007895663739 / 18014398509481984 : ℚ) * ((100 : Int) : ℚ)) =
      7881299347898369 / 1125899906842624 := by
    rw [round_double_eq_pos _ (-50) 7881299347898369 (by norm_num) (by norm_num)
      (by norm_num) (by norm_num) (by norm_num)]
    norm_num
  have e3 : round_double (((8 : Int) : ℚ) - 7881299347898369 / 1125899906842624) =
      1125899906842623 / 1125899906842624 := by
    rw [round_double_eq_pos _ (-53) 9007199254740984 (by norm_num) (by norm_num)
      (by norm_num) (by norm_num) (by norm_num)]
    norm_num
  rw [e1, e2, e3]
  norm_num [trunc]

/-- The anchor of 345 in a width of 1366, and the coordinate for a motion to
645: `int(645 - px * 1366)` is 299. -/
theorem target_345_1366_645 :
    trunc (double_sub (double_of_int 645)
        (double_mul (double_div (double_mul 1 (double_of_int 345)) (double_of_int 1366))
          (double_of_int 1366))) = 299 ∧
    double_div (double_mul 1 (double_of_int 345)) (double_of_int 1366) =
      4549756578163459 / 18014398509481984 := by
  rw [anchor_eq_round 345 1366 (by norm_num) (by norm_num) (by norm_num) (by norm_num),
    double_of_int_eq 645 (by norm_num) (by norm_num),
    double_of_int_eq 1366 (by norm_num) (by norm_num)]
  unfold double_sub double_mul
  have e1 : round_double (((345 : Int) : ℚ) / ((1366 : Int) : ℚ)) =
      4549756578163459 / 18014398509481984 := by
    rw [round_double_eq_pos _ (-54) 4549756578163459 (by norm_num) (by norm_num)
      (by norm_num) (by norm_num) (by norm_num)]
    norm_num
  have e2 : round_double ((4549756578163459 / 18014398509481984 : ℚ) * ((1366 : Int) : ℚ)) =
      6069304185323521 / 17592186044416 := by
    rw [round_double_eq_pos _ (-44) 6069304185323521 (by norm_num) (by norm_num)
      (by norm_num) (by norm_num) (by norm_num)]
    norm_num
  have e3 : round_double (((645 : Int) : ℚ) - 6069304185323521 / 17592186044416) =
      5277655813324799 / 17592186044416 := by
    rw [round_double_eq_pos _ (-44) 5277655813324799 (by norm_num) (by norm_num)
      (by norm_num) (by norm_num) (by norm_num)]
    norm_num
  rw [e1, e2, e3]
  exact ⟨by norm_num [trunc], rfl⟩

/-- The anchor of 31 in a width of 960, and the coordinate for a motion to
42: `int(42 - px * 960)` is 10. -/
theorem target_31_960_42 :
    trunc (double_sub (double_of_int 42)
        (double_mul (double_div (double_mul 1 (double_of_int 31)) (double_of_int 960))
          (double_of_int 960))) = 10 := by
  rw [anchor_eq_round 31 960 (by norm_num) (by norm_num) (by norm_num) (by norm_num),
    double_of_int_eq 42 (by norm_num) (by norm_num),
    double_of_int_eq 960 (by norm_num) (by norm_num)]
  unfold double_sub double_mul
  have e1 : round_double (((31 : Int) : ℚ) / ((960 : Int) : ℚ)) =
      4653719614949513 / 144115188075855872 := by
    rw [round_double_eq_pos _ (-57) 4653719614949513 (by norm_num) (by norm_num)
      (by norm_num) (by norm_num) (by norm_num)]
    norm_num
  have e2 : round_double ((4653719614949513 / 144115188075855872 : ℚ) * ((960 : Int) : ℚ)) =
      8725724278030337 / 281474976710656 := by
    rw [round_double_eq_pos _ (-48) 8725724278030337 (by norm_num) (by norm_num)
      (by norm_num) (by norm_num) (by norm_num)]
    norm_num
  have e3 : round_double (((42 : Int) : ℚ) - 8725724278030337 / 281474976710656) =
      3096224743817215 / 281474976710656 := by
    rw [round_double_eq_pos _ (-49) 6192449487634430 (by norm_num) (by norm_num)
      (by norm_num) (by norm_num) (by norm_num)]
    norm_num
  rw [e1, e2, e3]
  norm_num [trunc]

/-- The anchor of -10 in a width of 100 is the double nearest to -1/10. -/
theorem anchor_neg10_100 :
    double_div (double_mul 1 (double_of_int (-10))) (double_of_int 100) =
      -3602879701896397 / 36028797018963968 := by
  rw [anchor_eq_round (-10) 100 (by norm_num) (by norm_num) (by norm_num) (by norm_num)]
  rw [round_double_eq_neg _ (-56) (-7205759403792794) (by norm_num) (by norm_num)
    (by norm_num) (by norm_num) (by norm_num)]
  norm_num

/-! ## Theorems: the threshold test -/

/-- The executable threshold test agrees with the comparison of the real
square root against the integer threshold. -/
theorem distance_reached_iff_sqrt (d2 t : Int) :
    distance_reached d2 t = true ↔ (t : ℝ) ≤ Real.sqrt (d2 : ℝ) := by
  unfold distance_reached
  rw [decide_eq_true_iff]
  rcases le_or_lt t 0 with ht | ht
  · have h0 : (t : ℝ) ≤ 0 := by exact_mod_cast ht
    exact ⟨fun _ => h0.trans (Real.sqrt_nonneg _), fun _ => Or.inl ht⟩
  · have h0 : (0 : ℝ) ≤ (t : ℝ) := by exact_mod_cast ht.le
    rw [Real.le_sqrt' (by exact_mod_cast ht)]
    constructor
    · rintro (h | h)
      · omega
      · have : ((t * t : Int) : ℝ) ≤ (d2 : ℝ) := by exact_mod_cast h
        simpa [sq] using this
    · intro h
      right
      have : ((t * t : Int) : ℝ) ≤ (d2 : ℝ) := by simpa [sq] using h
      exact_mod_cast this

/-! ## Theorems: construction and a single motion event -/

/-- C5: right after construction the session is locked exactly when the
option `enable_snap_off` is non-zero and the window is tiled
(`tiled_edges != 0`) or fullscreen. -/
theorem ctor_locked_iff {V : Type} (I : view_interface V) (enable_snap_off snap_off_threshold : Int)
    (view : V) (grab : wf_point) :
    (move_snap_helper_t.ctor I enable_snap_off snap_off_threshold view grab).1.is_view_fixed = true ↔
      (enable_snap_off ≠ 0 ∧ (I.tiled_edges view ≠ 0 ∨ I.fullscreen view = true)) := by
  simp [move_snap_helper_t.ctor, move_snap_helper_t.is_view_fixed,
    move_snap_helper_t.should_enable_snap_off]

/-- C1: on a locked session with a positive threshold `t`, a motion to a
point whose squared distance from the grab point is below `t^2` returns the
session unchanged (still locked, same `last_grabbing_position`, window
untouched) and emits only the wobbly notification: no move, tile or
fullscreen request. -/
theorem handle_motion_below_threshold {V : Type} (I : view_interface V)
    (s : move_snap_helper_t V) (to_ : wf_point)
    (hlocked : s.view_in_slot = true) (ht : 0 < s.snap_off_threshold)
    (hd : (to_.x - s.grab.x) ^ 2 + (to_.y - s.grab.y) ^ 2 < s.snap_off_threshold ^ 2) :
    s.handle_motion I to_ = (s, [request.move_wobbly to_.x to_.y]) ∧
    (s.handle_motion I to_).1.is_view_fixed = true ∧
    (s.handle_motion I to_).1.last_grabbing_position = s.last_grabbing_position ∧
    (∀ r ∈ (s.handle_motion I to_).2, is_window_request r = false) := by
  have hnot : distance_reached
      ((to_.x - s.grab.x) * (to_.x - s.grab.x) + (to_.y - s.grab.y) * (to_.y - s.grab.y))
      s.snap_off_threshold = false := by
    unfold distance_reached
    rw [decide_eq_false_iff_not]
    rintro (h | h)
    · omega
    · nlinarith
  have hmain : s.handle_motion I to_ = (s, [request.move_wobbly to_.x to_.y]) := by
    simp [move_snap_helper_t.handle_motion, hlocked, hnot]
  refine ⟨hmain, ?_, ?_, ?_⟩
  · rw [hmain]; exact hlocked
  · rw [hmain]
  · rw [hmain]
    intro r hr
    simp only [List.mem_singleton] at hr
    subst hr
    rfl

/-- C1, at threshold 10, grab (50, 50) and a motion to (55, 50) on the tiled
window. -/
theorem handle_motion_below_threshold_witness :
    (tiled_session.view_in_slot = true ∧ 0 < tiled_session.snap_off_threshold ∧
      ((55 : Int) - tiled_session.grab.x) ^ 2 + ((50 : Int) - tiled_session.grab.y) ^ 2 <
        tiled_session.snap_off_threshold ^ 2) ∧
    tiled_session.handle_motion simple_view_interface { x := 55, y := 50 } =
      (tiled_session, [request.move_wobbly 55 50]) :=
  ⟨⟨by decide, by decide, by decide⟩,
   (handle_motion_below_threshold simple_view_interface tiled_session { x := 55, y := 50 }
      (by decide) (by decide) (by decide)).1⟩

/-- C2: on a locked session, a motion to a point whose Euclidean distance from
the grab point is at least the threshold unlocks the session in that call; a
fullscreen-exit request is emitted exactly when the window is fullscreen, then
a tile request with mask 0 exactly when the window has tiled edges (read after
the fullscreen answer, so the window's tiled edges at the call whenever that
answer leaves them alone, in particular when it is not fullscreen); after
these the call records the point as `last_grabbing_position` and requests a
move to the anchor position `int(to - px * size)`, computed in `double`
arithmetic on the window's box as it is then. -/
theorem handle_motion_snap_off {V : Type} (I : view_interface V)
    (s : move_snap_helper_t V) (to_ : wf_point)
    (hlocked : s.view_in_slot = true)
    (hd : (s.snap_off_threshold : ℝ) ≤
      Real.sqrt (((to_.x - s.grab.x) ^ 2 + (to_.y - s.grab.y) ^ 2 : Int) : ℝ)) :
    let v1 := if I.fullscreen s.view then I.fullscreen_request s.view false else s.view
    let v2 := if I.tiled_edges v1 ≠ 0 then I.tile_request v1 0 else v1
    let tx := trunc (double_sub (double_of_int to_.x)
      (double_mul s.px (double_of_int (I.get_wm_geometry v2).width)))
    let ty := trunc (double_sub (double_of_int to_.y)
      (double_mul s.py (double_of_int (I.get_wm_geometry v2).height)))
    (s.handle_motion I to_).1.is_view_fixed = false ∧
    (s.handle_motion I to_).1.last_grabbing_position = to_ ∧
    (s.handle_motion I to_).1.view = I.move v2 tx ty ∧
    (s.handle_motion I to_).2 =
      [request.move_wobbly to_.x to_.y] ++
      (if I.fullscreen s.view then [request.fullscreen_request false] else []) ++
      (if I.tiled_edges v1 ≠ 0 then [request.tile_request 0] else []) ++
      [request.disconnect_signal, request.move tx ty, request.connect_signal] ∧
    (request.fullscreen_request false ∈ (s.handle_motion I to_).2 ↔ I.fullscreen s.view = true) ∧
    (request.tile_request 0 ∈ (s.handle_motion I to_).2 ↔ I.tiled_edges v1 ≠ 0) ∧
    (I.fullscreen s.view = false →
      (request.tile_request 0 ∈ (s.handle_motion I to_).2 ↔ I.tiled_edges s.view ≠ 0)) ∧
    (I.tiled_edges (I.fullscreen_request s.view false) = I.tiled_edges s.view →
      (request.tile_request 0 ∈ (s.handle_motion I to_).2 ↔ I.tiled_edges s.view ≠ 0)) := by
  intro v1 v2 tx ty
  have hreach : distance_reached
      ((to_.x - s.grab.x) * (to_.x - s.grab.x) + (to_.y - s.grab.y) * (to_.y - s.grab.y))
      s.snap_off_threshold = true := by
    rw [distance_reached_iff_sqrt]
    have e : ((to_.x - s.grab.x) * (to_.x - s.grab.x) + (to_.y - s.grab.y) * (to_.y - s.grab.y)) =
        ((to_.x - s.grab.x) ^ 2 + (to_.y - s.grab.y) ^ 2) := by ring
    rw [e]; exact hd
  have hout : (s.handle_motion I to_).2 =
      [request.move_wobbly to_.x to_.y] ++
      (if I.fullscreen s.view then [request.fullscreen_request false] else []) ++
      (if I.tiled_edges v1 ≠ 0 then [request.tile_request 0] else []) ++
      [request.disconnect_signal, request.move tx ty, request.connect_signal] := by
    simp only [move_snap_helper_t.handle_motion, hlocked, hreach, Bool.and_self, if_true,
      move_snap_helper_t.snap_off, move_snap_helper_t.adjust_around_grab,
      move_snap_helper_t.target_position, Bool.false_eq_true, if_false, v1, v2, tx, ty]
    by_cases hf : I.fullscreen s.view = true <;>
      by_cases hte : I.tiled_edges (I.fullscreen_request s.view false) = 0 <;>
      by_cases hte2 : I.tiled_edges s.view = 0 <;> simp [hf, hte, hte2]
  have htile : request.tile_request 0 ∈ (s.handle_motion I to_).2 ↔ I.tiled_edges v1 ≠ 0 := by
    rw [hout]
    by_cases hf : I.fullscreen s.view = true <;>
      by_cases hte : I.tiled_edges v1 = 0 <;> simp [hf, hte]
  refine ⟨?_, ?_, ?_, hout, ?_, htile, ?_, ?_⟩
  · simp [move_snap_helper_t.handle_motion, hlocked, hreach, move_snap_helper_t.snap_off,
      move_snap_helper_t.adjust_around_grab, move_snap_helper_t.is_view_fixed]
  · simp [move_snap_helper_t.handle_motion, hlocked, hreach, move_snap_helper_t.snap_off,
      move_snap_helper_t.adjust_around_grab]
  · simp only [move_snap_helper_t.handle_motion, hlocked, hreach, Bool.and_self, if_true,
      move_snap_helper_t.snap_off, move_snap_helper_t.adjust_around_grab,
      move_snap_helper_t.target_position, Bool.false_eq_true, if_false, v1, v2, tx, ty]
    by_cases hf : I.fullscreen s.view = true <;>
      by_cases hte : I.tiled_edges (I.fullscreen_request s.view false) = 0 <;>
      by_cases hte2 : I.tiled_edges s.view = 0 <;> simp [hf, hte, hte2]
  · rw [hout]
    by_cases hf : I.fullscreen s.view = true <;>
      by_cases hte : I.tiled_edges v1 = 0 <;> simp [hf, hte]
  · intro hf
    rw [htile]
    simp [v1, hf]
  · intro hkeep
    rw [htile]
    by_cases hf : I.fullscreen s.view = true
    · simp [v1, hf, hkeep]
    · simp [v1, hf]

/-- C2, at threshold 10 on the tiled window 960x1080: with grab (50, 50), a
motion to (61, 50) unlocks the session and emits a tile request with mask 0;
with grab (31, 0), a motion to (42, 0) emits the wobbly notification, the tile
request and the move to (10, 0), since `31.0 / 960 * 960` is
`31.000000000000004` in `double` arithmetic. -/
theorem handle_motion_snap_off_witness :
    (tiled_session.view_in_slot = true ∧
      (tiled_session.snap_off_threshold : ℝ) ≤
        Real.sqrt ((((61 : Int) - tiled_session.grab.x) ^ 2 +
          ((50 : Int) - tiled_session.grab.y) ^ 2 : Int) : ℝ)) ∧
    (tiled_session.handle_motion simple_view_interface { x := 61, y := 50 }).1.is_view_fixed =
      false ∧
    request.tile_request 0 ∈
      (tiled_session.handle_motion simple_view_interface { x := 61, y := 50 }).2 ∧
    ((move_snap_helper_t.ctor simple_view_interface 1 10 tiled_view
        { x := 31, y := 0 }).1.handle_motion simple_view_interface { x := 42, y := 0 }).2 =
      [request.move_wobbly 42 0, request.tile_request 0, request.disconnect_signal,
       request.move 10 0, request.connect_signal] := by
  refine ⟨⟨by decide, (distance_reached_iff_sqrt _ _).mp (by decide)⟩,
    (handle_motion_snap_off simple_view_interface tiled_session { x := 61, y := 50 }
      (by decide) ((distance_reached_iff_sqrt _ _).mp (by decide))).1,
    (handle_motion_snap_off simple_view_interface tiled_session { x := 61, y := 50 }
      (by decide) ((distance_reached_iff_sqrt _ _).mp (by decide))).2.2.2.2.2.1.mpr (by decide),
    ?_⟩
  have h : ((move_snap_helper_t.ctor simple_view_interface 1 10 tiled_view
        { x := 31, y := 0 }).1.handle_motion simple_view_interface { x := 42, y := 0 }).2 =
      [request.move_wobbly 42 0, request.tile_request 0, request.disconnect_signal,
       request.move
        (trunc (double_sub (double_of_int 42)
          (double_mul (double_div (double_mul 1 (double_of_int 31)) (double_of_int 960))
            (double_of_int 960))))
        (trunc (double_sub (double_of_int 0)
          (double_mul (double_div (double_mul 1 (double_of_int 0)) (double_of_int 1080))
            (double_of_int 1080)))),
       request.connect_signal] :=
    (handle_motion_snap_off simple_view_interface
      (move_snap_helper_t.ctor simple_view_interface 1 10 tiled_view { x := 31, y := 0 }).1
      { x := 42, y := 0 } (by decide) ((distance_reached_iff_sqrt _ _).mp (by decide))).2.2.2.1
  rw [target_31_960_42, target_zero_anchor 0 1080 1080 (by decide)] at h
  exact h

/-! ## Theorems: the grab anchor -/

/-- C7 (as stated, refuted): a grab at (0, 0) on a window whose box is
(10, 20, 100, 50) gives the anchor fraction `px = -0.1` (the double nearest to
-1/10), which is not in [0, 1]. -/
theorem ctor_anchor_outside_unit :
    0 < (simple_view_interface.get_wm_geometry floating_view).width ∧
    0 < (simple_view_interface.get_wm_geometry floating_view).height ∧
    (move_snap_helper_t.ctor simple_view_interface 1 0 floating_view { x := 0, y := 0 }).1.px =
      -3602879701896397 / 36028797018963968 ∧
    ¬ (0 ≤ (move_snap_helper_t.ctor simple_view_interface 1 0 floating_view
          { x := 0, y := 0 }).1.px ∧
        (move_snap_helper_t.ctor simple_view_interface 1 0 floating_view
          { x := 0, y := 0 }).1.px ≤ 1) := by
  have h : (move_snap_helper_t.ctor simple_view_interface 1 0 floating_view
      { x := 0, y := 0 }).1.px =
      double_div (double_mul 1 (double_of_int (-10))) (double_of_int 100) := rfl
  rw [anchor_neg10_100] at h
  refine ⟨by decide, by decide, h, ?_⟩
  rw [h]
  norm_num

/-- C7 (amended): when the window's box has positive width and height and the
grab point lies within the box (`box.x <= grab.x <= box.x + box.width` and the
same vertically), the anchor fraction computed by the constructor,
`px = (grab.x - box.x) / box.width` and `py = (grab.y - box.y) / box.height`
in `double` arithmetic (for 32-bit coordinates the double nearest to the exact
quotient), lies in [0, 1] in both components. -/
theorem ctor_anchor_in_unit {V : Type} (I : view_interface V)
    (enable_snap_off snap_off_threshold : Int) (view : V) (grab : wf_point)
    (hw : 0 < (I.get_wm_geometry view).width) (hh : 0 < (I.get_wm_geometry view).height)
    (hx0 : (I.get_wm_geometry view).x ≤ grab.x)
    (hx1 : grab.x ≤ (I.get_wm_geometry view).x + (I.get_wm_geometry view).width)
    (hy0 : (I.get_wm_geometry view).y ≤ grab.y)
    (hy1 : grab.y ≤ (I.get_wm_geometry view).y + (I.get_wm_geometry view).height) :
    (move_snap_helper_t.ctor I enable_snap_off snap_off_threshold view grab).1.px =
        double_div (double_mul 1 (double_of_int (grab.x - (I.get_wm_geometry view).x)))
          (double_of_int (I.get_wm_geometry view).width) ∧
    (move_snap_helper_t.ctor I enable_snap_off snap_off_threshold view grab).1.py =
        double_div (double_mul 1 (double_of_int (grab.y - (I.get_wm_geometry view).y)))
          (double_of_int (I.get_wm_geometry view).height) ∧
    (0 ≤ (move_snap_helper_t.ctor I enable_snap_off snap_off_threshold view grab).1.px ∧
      (move_snap_helper_t.ctor I enable_snap_off snap_off_threshold view grab).1.px ≤ 1) ∧
    (0 ≤ (move_snap_helper_t.ctor I enable_snap_off snap_off_threshold view grab).1.py ∧
      (move_snap_helper_t.ctor I enable_snap_off snap_off_threshold view grab).1.py ≤ 1) ∧
    (is_int grab.x → is_int (I.get_wm_geometry view).x → is_int (I.get_wm_geometry view).width →
      (move_snap_helper_t.ctor I enable_snap_off snap_off_threshold view grab).1.px =
        round_double (((grab.x : ℚ) - (I.get_wm_geometry view).x) /
          (I.get_wm_geometry view).width)) ∧
    (is_int grab.y → is_int (I.get_wm_geometry view).y → is_int (I.get_wm_geometry view).height →
      (move_snap_helper_t.ctor I enable_snap_off snap_off_threshold view grab).1.py =
        round_double (((grab.y : ℚ) - (I.get_wm_geometry view).y) /
          (I.get_wm_geometry view).height)) := by
  refine ⟨rfl, rfl, ?_, ?_, ?_, ?_⟩
  · exact anchor_in_unit _ _ (by omega) (by omega) hw
  · exact anchor_in_unit _ _ (by omega) (by omega) hh
  · rintro ⟨g1, g2⟩ ⟨b1, b2⟩ ⟨w1, w2⟩
    simp only [move_snap_helper_t.ctor]
    rw [anchor_eq_round _ _ (by omega) (by omega) (by omega) (by omega)]
    push_cast; rfl
  · rintro ⟨g1, g2⟩ ⟨b1, b2⟩ ⟨w1, w2⟩
    simp only [move_snap_helper_t.ctor]
    rw [anchor_eq_round _ _ (by omega) (by omega) (by omega) (by omega)]
    push_cast; rfl

/-- C7 (amended), at a grab at (35, 30) on the window whose box is
(10, 20, 100, 50): the anchor is (1/4, 1/5). -/
theorem ctor_anchor_in_unit_witness :
    (0 < (simple_view_interface.get_wm_geometry floating_view).width ∧
      0 < (simple_view_interface.get_wm_geometry floating_view).height ∧
      (simple_view_interface.get_wm_geometry floating_view).x ≤ 35 ∧
      35 ≤ (simple_view_interface.get_wm_geometry floating_view).x +
        (simple_view_interface.get_wm_geometry floating_view).width ∧
      (simple_view_interface.get_wm_geometry floating_view).y ≤ 30 ∧
      30 ≤ (simple_view_interface.get_wm_geometry floating_view).y +
        (simple_view_interface.get_wm_geometry floating_view).height) ∧
    (0 ≤ (move_snap_helper_t.ctor simple_view_interface 1 0 floating_view
          { x := 35, y := 30 }).1.px ∧
      (move_snap_helper_t.ctor simple_view_interface 1 0 floating_view
          { x := 35, y := 30 }).1.px ≤ 1) :=
  ⟨⟨by decide, by decide, by decide, by decide, by decide, by decide⟩,
   (ctor_anchor_in_unit simple_view_interface 1 0 floating_view { x := 35, y := 30 }
      (by decide) (by decide) (by decide) (by decide) (by decide) (by decide)).2.2.1⟩

/-! ## Lemmas on event sequences -/

/-- On an unlocked session `handle_motion` records the point and moves the
window to the target position. -/
theorem handle_motion_unlocked {V : Type} (I : view_interface V) (s : move_snap_helper_t V)
    (to_ : wf_point) (hu : s.view_in_slot = false) :
    (s.handle_motion I to_).1 =
      (move_snap_helper_t.adjust_around_grab I { s with last_grabbing_position := to_ }).1 ∧
    (s.handle_motion I to_).2 =
      [request.move_wobbly to_.x to_.y, request.disconnect_signal,
       request.move
        (trunc (double_sub (double_of_int to_.x)
          (double_mul s.px (double_of_int (I.get_wm_geometry s.view).width))))
        (trunc (double_sub (double_of_int to_.y)
          (double_mul s.py (double_of_int (I.get_wm_geometry s.view).height)))),
       request.connect_signal] := by
  constructor
  · simp [move_snap_helper_t.handle_motion, hu, move_snap_helper_t.adjust_around_grab]
  · simp [move_snap_helper_t.handle_motion, hu, move_snap_helper_t.adjust_around_grab,
      move_snap_helper_t.target_position]

/-- No event changes the anchor, the grab point or the options. -/
theorem step_frozen {V : Type} (I : view_interface V) (s : move_snap_helper_t V) (e : event V) :
    (step I s e).1.px = s.px ∧ (step I s e).1.py = s.py ∧ (step I s e).1.grab = s.grab ∧
    (step I s e).1.snap_off_threshold = s.snap_off_threshold := by
  cases e with
  | motion to_ =>
    simp only [step, move_snap_helper_t.handle_motion, move_snap_helper_t.snap_off,
      move_snap_helper_t.adjust_around_grab]
    split_ifs <;> simp
  | input_released => simp [step, move_snap_helper_t.handle_input_released]
  | geometry_changed =>
    simp [step, move_snap_helper_t.view_geometry_changed, move_snap_helper_t.adjust_around_grab]
  | view_changed v => simp [step]

/-- The anchor, the grab point and the options are the same after any sequence
of events. -/
theorem run_frozen {V : Type} (I : view_interface V) (es : List (event V)) :
    ∀ s : move_snap_helper_t V,
      (run I s es).px = s.px ∧ (run I s es).py = s.py ∧ (run I s es).grab = s.grab ∧
      (run I s es).snap_off_threshold = s.snap_off_threshold := by
  induction es with
  | nil => intro s; simp [run]
  | cons e es ih =>
    intro s
    obtain ⟨h1, h2, h3, h4⟩ := ih (step I s e).1
    obtain ⟨k1, k2, k3, k4⟩ := step_frozen I s e
    simp only [run]
    exact ⟨h1.trans k1, h2.trans k2, h3.trans k3, h4.trans k4⟩

/-- Running a concatenation of event sequences. -/
theorem run_append {V : Type} (I : view_interface V) (es fs : List (event V)) :
    ∀ s : move_snap_helper_t V, run I s (es ++ fs) = run I (run I s es) fs := by
  induction es with
  | nil => intro s; rfl
  | cons e es ih => intro s; simp only [List.cons_append, run]; exact ih _

/-- An unlocked session stays unlocked through one event and emits no snap-off
request. -/
theorem step_unlocked {V : Type} (I : view_interface V) (s : move_snap_helper_t V) (e : event V)
    (hu : s.view_in_slot = false) :
    (step I s e).1.view_in_slot = false ∧ (step I s e).2.any is_snap_request = false := by
  cases e with
  | motion to_ =>
    simp [step, move_snap_helper_t.handle_motion, hu, move_snap_helper_t.adjust_around_grab,
      is_snap_request]
  | input_released => simp [step, move_snap_helper_t.handle_input_released, hu, is_snap_request]
  | geometry_changed =>
    simp [step, move_snap_helper_t.view_geometry_changed, move_snap_helper_t.adjust_around_grab,
      hu, is_snap_request]
  | view_changed v => simp [step, hu]

/-- An unlocked session stays unlocked through any sequence of events. -/
theorem run_unlocked {V : Type} (I : view_interface V) (es : List (event V)) :
    ∀ s : move_snap_helper_t V, s.view_in_slot = false → (run I s es).view_in_slot = false := by
  induction es with
  | nil => intro s hu; exact hu
  | cons e es ih => intro s hu; exact ih _ (step_unlocked I s e hu).1

/-- An unlocked session emits no snap-off request in any later event. -/
theorem trace_unlocked {V : Type} (I : view_interface V) (es : List (event V)) :
    ∀ s : move_snap_helper_t V, s.view_in_slot = false →
      (trace I s es).countP (fun out => out.any is_snap_request) = 0 := by
  induction es with
  | nil => intro s _; rfl
  | cons e es ih =>
    intro s hu
    simp only [trace]
    rw [List.countP_cons_of_neg]
    · exact ih _ (step_unlocked I s e hu).1
    · simp [(step_unlocked I s e hu).2]

/-- An event that emits a snap-off request is handled by a locked session and
leaves it unlocked. -/
theorem step_snap_request {V : Type} (I : view_interface V) (s : move_snap_helper_t V)
    (e : event V) (h : (step I s e).2.any is_snap_request = true) :
    s.view_in_slot = true ∧ (step I s e).1.view_in_slot = false := by
  cases hs : s.view_in_slot with
  | false =>
    have := (step_unlocked I s e hs).2
    rw [this] at h
    exact absurd h (by decide)
  | true =>
    refine ⟨rfl, ?_⟩
    cases e with
    | motion to_ =>
      by_cases hr : distance_reached
          ((to_.x - s.grab.x) * (to_.x - s.grab.x) + (to_.y - s.grab.y) * (to_.y - s.grab.y))
          s.snap_off_threshold = true
      · simp [step, move_snap_helper_t.handle_motion, hs, hr, move_snap_helper_t.snap_off,
          move_snap_helper_t.adjust_around_grab]
      · simp [step, move_snap_helper_t.handle_motion, hs, hr, is_snap_request] at h
    | input_released =>
      simp [step, move_snap_helper_t.handle_input_released, is_snap_request] at h
    | geometry_changed =>
      simp [step, move_snap_helper_t.view_geometry_changed,
        move_snap_helper_t.adjust_around_grab, is_snap_request] at h
    | view_changed v => simp [step] at h

/-- When moves are honoured, a sequence of motion events on an unlocked
session keeps it unlocked and keeps the size of the window. -/
theorem run_motions_size {V : Type} (I : view_interface V)
    (hmove : ∀ v x y, I.get_wm_geometry (I.move v x y) =
      { x := x, y := y, width := (I.get_wm_geometry v).width,
        height := (I.get_wm_geometry v).height })
    (ms : List wf_point) :
    ∀ s : move_snap_helper_t V, s.view_in_slot = false →
      (run I s (ms.map event.motion)).view_in_slot = false ∧
      (I.get_wm_geometry (run I s (ms.map event.motion)).view).width =
        (I.get_wm_geometry s.view).width ∧
      (I.get_wm_geometry (run I s (ms.map event.motion)).view).height =
        (I.get_wm_geometry s.view).height := by
  induction ms with
  | nil => intro s hu; exact ⟨hu, rfl, rfl⟩
  | cons m ms ih =>
    intro s hu
    simp only [List.map_cons, run]
    obtain ⟨h1, h2, h3⟩ := ih (step I s (event.motion m)).1 (step_unlocked I s _ hu).1
    refine ⟨h1, h2.trans ?_, h3.trans ?_⟩
    · simp only [step]
      rw [(handle_motion_unlocked I s m hu).1]
      simp [move_snap_helper_t.adjust_around_grab, hmove]
    · simp only [step]
      rw [(handle_motion_unlocked I s m hu).1]
      simp [move_snap_helper_t.adjust_around_grab, hmove]

/-- When moves are honoured, after a non-empty sequence of motion events on an
unlocked session the window is where the last motion put it. -/
theorem run_motions_final {V : Type} (I : view_interface V)
    (hmove : ∀ v x y, I.get_wm_geometry (I.move v x y) =
      { x := x, y := y, width := (I.get_wm_geometry v).width,
        height := (I.get_wm_geometry v).height })
    (ms : List wf_point) (T : wf_point) (s : move_snap_helper_t V)
    (hu : s.view_in_slot = false) :
    I.get_wm_geometry (run I s (List.map event.motion (ms ++ [T]))).view =
      { x := trunc (double_sub (double_of_int T.x)
          (double_mul s.px (double_of_int (I.get_wm_geometry s.view).width)))
        y := trunc (double_sub (double_of_int T.y)
          (double_mul s.py (double_of_int (I.get_wm_geometry s.view).height)))
        width := (I.get_wm_geometry s.view).width
        height := (I.get_wm_geometry s.view).height } := by
  obtain ⟨hu', hwid, hhei⟩ := run_motions_size I hmove ms s hu
  obtain ⟨hpx, hpy, _, _⟩ := run_frozen I (ms.map event.motion) s
  rw [List.map_append, run_append]
  simp only [List.map_cons, List.map_nil, run, step]
  rw [(handle_motion_unlocked I _ T hu').1]
  simp only [move_snap_helper_t.adjust_around_grab, move_snap_helper_t.target_position, hmove,
    hpx, hpy, hwid, hhei]

/-! ## Theorems: anchor invariant and drift -/

/-- C3 (as stated, refuted): on the window (0, 0, 1366, 768) grabbed at
(345, 0), an unlocked motion to (645, 0) requests the position (299, 0), while
`to.x - px * w` with the anchor fraction `345/1366` is exactly 300: the
requested coordinate is not `trunc` of that value and differs from it by 1,
not by less than 1. -/
theorem drag_anchor_off_by_one :
    (0 < (simple_view_interface.get_wm_geometry wide_view).width ∧
      0 < (simple_view_interface.get_wm_geometry wide_view).height ∧
      (run simple_view_interface (move_snap_helper_t.ctor simple_view_interface 1 0
        wide_view { x := 345, y := 0 }).1 []).view_in_slot = false) ∧
    ((run simple_view_interface (move_snap_helper_t.ctor simple_view_interface 1 0
        wide_view { x := 345, y := 0 }).1 []).handle_motion
        simple_view_interface { x := 645, y := 0 }).2 =
      [request.move_wobbly 645 0, request.disconnect_signal, request.move 299 0,
       request.connect_signal] ∧
    trunc ((645 : ℚ) - ((345 : ℚ) - 0) / 1366 * 1366) = 300 ∧
    ¬ |((299 : Int) : ℚ) - ((645 : ℚ) - ((345 : ℚ) - 0) / 1366 * 1366)| < 1 := by
  refine ⟨⟨by decide, by decide, by decide⟩, ?_, by norm_num [trunc], by norm_num⟩
  have h : ((run simple_view_interface (move_snap_helper_t.ctor simple_view_interface 1 0
        wide_view { x := 345, y := 0 }).1 []).handle_motion
        simple_view_interface { x := 645, y := 0 }).2 =
      [request.move_wobbly 645 0, request.disconnect_signal,
       request.move
        (trunc (double_sub (double_of_int 645)
          (double_mul (double_div (double_mul 1 (double_of_int 345)) (double_of_int 1366))
            (double_of_int 1366))))
        (trunc (double_sub (double_of_int 0)
          (double_mul (double_div (double_mul 1 (double_of_int 0)) (double_of_int 768))
            (double_of_int 768)))),
       request.connect_signal] :=
    (handle_motion_unlocked simple_view_interface _ { x := 645, y := 0 } (by decide)).2
  rw [target_345_1366_645.1, target_zero_anchor 0 768 768 (by decide)] at h
  exact h

/-- C3 (amended): for a session constructed with grab point `grab` on a window
whose box has positive width and height, a motion to `to` handled while the
session is unlocked (after any events) requests the position
`(int(to.x - px*w), int(to.y - py*h))` evaluated in `double` arithmetic, where
`(px, py)` is the `double` anchor stored at construction and `(w, h)` the
window's box size at the time of the motion; when `to`, the size and the
requested coordinate are 32-bit values, each requested coordinate differs from
the exact value of `to - px * size`, taken with the stored anchor, by less
than 1. -/
theorem drag_anchor_position {V : Type} (I : view_interface V)
    (enable_snap_off snap_off_threshold : Int) (view : V) (grab : wf_point)
    (es : List (event V)) (to_ : wf_point)
    (_hw : 0 < (I.get_wm_geometry view).width) (_hh : 0 < (I.get_wm_geometry view).height)
    (hunlocked : (run I (move_snap_helper_t.ctor I enable_snap_off snap_off_threshold
        view grab).1 es).view_in_slot = false) :
    let box := I.get_wm_geometry view
    let px : ℚ := double_div (double_mul 1 (double_of_int (grab.x - box.x)))
      (double_of_int box.width)
    let py : ℚ := double_div (double_mul 1 (double_of_int (grab.y - box.y)))
      (double_of_int box.height)
    let s := run I (move_snap_helper_t.ctor I enable_snap_off snap_off_threshold view grab).1 es
    let wmg := I.get_wm_geometry s.view
    let tx := trunc (double_sub (double_of_int to_.x) (double_mul px (double_of_int wmg.width)))
    let ty := trunc (double_sub (double_of_int to_.y) (double_mul py (double_of_int wmg.height)))
    (s.handle_motion I to_).2 =
      [request.move_wobbly to_.x to_.y, request.disconnect_signal, request.move tx ty,
       request.connect_signal] ∧
    (is_int to_.x → is_int wmg.width → is_int tx →
      |(tx : ℚ) - ((to_.x : ℚ) - px * (wmg.width : ℚ))| < 1) ∧
    (is_int to_.y → is_int wmg.height → is_int ty →
      |(ty : ℚ) - ((to_.y : ℚ) - py * (wmg.height : ℚ))| < 1) := by
  intro box px py s wmg tx ty
  obtain ⟨hpx, hpy, _, _⟩ := run_frozen I es
    (move_snap_helper_t.ctor I enable_snap_off snap_off_threshold view grab).1
  have hpx' : s.px = px := hpx
  have hpy' : s.py = py := hpy
  refine ⟨?_, ?_, ?_⟩
  · rw [(handle_motion_unlocked I s to_ hunlocked).2, hpx', hpy']
  · intro h1 h2 h3
    exact abs_target_sub_lt_one px to_.x wmg.width h1 h2 h3
  · intro h1 h2 h3
    exact abs_target_sub_lt_one py to_.y wmg.height h1 h2 h3

/-- C3 (amended), on the window (0, 0, 1366, 768) grabbed at (345, 0): the
stored anchor is the double nearest to 345/1366, slightly above it; the motion
to (645, 0) requests the position (299, 0), and 299 is within less than 1 of
`645 - px * 1366`, which is slightly below 300. -/
theorem drag_anchor_position_witness :
    (0 < (simple_view_interface.get_wm_geometry wide_view).width ∧
      0 < (simple_view_interface.get_wm_geometry wide_view).height ∧
      (run simple_view_interface (move_snap_helper_t.ctor simple_view_interface 1 0
        wide_view { x := 345, y := 0 }).1 []).view_in_slot = false) ∧
    (is_int 645 ∧ is_int 1366 ∧ is_int 299) ∧
    ((run simple_view_interface (move_snap_helper_t.ctor simple_view_interface 1 0
        wide_view { x := 345, y := 0 }).1 []).handle_motion
        simple_view_interface { x := 645, y := 0 }).2 =
      [request.move_wobbly 645 0, request.disconnect_signal, request.move 299 0,
       request.connect_signal] ∧
    |((299 : Int) : ℚ) -
      (((645 : Int) : ℚ) - 4549756578163459 / 18014398509481984 * ((1366 : Int) : ℚ))| < 1 := by
  refine ⟨⟨by decide, by decide, by decide⟩, ⟨by decide, by decide, by decide⟩, ?_, ?_⟩
  · have h : ((run simple_view_interface (move_snap_helper_t.ctor simple_view_interface 1 0
          wide_view { x := 345, y := 0 }).1 []).handle_motion
          simple_view_interface { x := 645, y := 0 }).2 =
        [request.move_wobbly 645 0, request.disconnect_signal,
         request.move
          (trunc (double_sub (double_of_int 645)
            (double_mul (double_div (double_mul 1 (double_of_int 345)) (double_of_int 1366))
              (double_of_int 1366))))
          (trunc (double_sub (double_of_int 0)
            (double_mul (double_div (double_mul 1 (double_of_int 0)) (double_of_int 768))
              (double_of_int 768)))),
         request.connect_signal] :=
      (drag_anchor_position simple_view_interface 1 0 wide_view { x := 345, y := 0 } []
        { x := 645, y := 0 } (by decide) (by decide) (by decide)).1
    rw [target_345_1366_645.1, target_zero_anchor 0 768 768 (by decide)] at h
    exact h
  · have h : is_int 645 → is_int 1366 →
        is_int (trunc (double_sub (double_of_int 645)
          (double_mul (double_div (double_mul 1 (double_of_int 345)) (double_of_int 1366))
            (double_of_int 1366)))) →
        |((trunc (double_sub (double_of_int 645)
          (double_mul (double_div (double_mul 1 (double_of_int 345)) (double_of_int 1366))
            (double_of_int 1366))) : Int) : ℚ) -
          (((645 : Int) : ℚ) -
            double_div (double_mul 1 (double_of_int 345)) (double_of_int 1366) *
              ((1366 : Int) : ℚ))| < 1 :=
      (drag_anchor_position simple_view_interface 1 0 wide_view { x := 345, y := 0 } []
        { x := 645, y := 0 } (by decide) (by decide) (by decide)).2.1
    rw [target_345_1366_645.1, target_345_1366_645.2] at h
    exact h (by decide) (by decide) (by decide)

/-- C4 (as stated, refuted): on the window (10, 20, 100, 50) grabbed at
(17, 20), with honoured moves and unchanged size, a single motion to (8, 20)
leaves the window at x = 0, while the position at grab time plus `T - G` is
10 + (8 - 17) = 1: `0.07 * 100` is `7.000000000000001` in `double`
arithmetic. -/
theorem no_drift_off_by_one :
    (0 < (simple_view_interface.get_wm_geometry floating_view).width ∧
      0 < (simple_view_interface.get_wm_geometry floating_view).height ∧
      (move_snap_helper_t.ctor simple_view_interface 1 0 floating_view
        { x := 17, y := 20 }).1.view_in_slot = false) ∧
    simple_view_interface.get_wm_geometry
      (run simple_view_interface (move_snap_helper_t.ctor simple_view_interface 1 0
        floating_view { x := 17, y := 20 }).1
        (List.map event.motion ([] ++ [({ x := 8, y := 20 } : wf_point)]))).view =
      { x := 0, y := 20, width := 100, height := 50 } ∧
    (simple_view_interface.get_wm_geometry floating_view).x + ((8 : Int) - 17) = 1 ∧
    (simple_view_interface.get_wm_geometry
      (run simple_view_interface (move_snap_helper_t.ctor simple_view_interface 1 0
        floating_view { x := 17, y := 20 }).1
        (List.map event.motion ([] ++ [({ x := 8, y := 20 } : wf_point)]))).view).x ≠
      (simple_view_interface.get_wm_geometry floating_view).x + ((8 : Int) - 17) := by
  have h : simple_view_interface.get_wm_geometry
      (run simple_view_interface (move_snap_helper_t.ctor simple_view_interface 1 0
        floating_view { x := 17, y := 20 }).1
        (List.map event.motion ([] ++ [({ x := 8, y := 20 } : wf_point)]))).view =
      { x := trunc (double_sub (double_of_int 8)
          (double_mul (double_div (double_mul 1 (double_of_int 7)) (double_of_int 100))
            (double_of_int 100)))
        y := trunc (double_sub (double_of_int 20)
          (double_mul (double_div (double_mul 1 (double_of_int 0)) (double_of_int 50))
            (double_of_int 50)))
        width := 100, height := 50 } :=
    run_motions_final simple_view_interface (fun _ _ _ => rfl) [] { x := 8, y := 20 } _
      (by decide)
  rw [target_7_100_8, target_zero_anchor 20 50 50 (by decide)] at h
  refine ⟨⟨by decide, by decide, by decide⟩, h, by decide, ?_⟩
  rw [h]
  decide

/-- C4 (amended): on an unlocked session whose window keeps its (positive)
size and honours move requests, after any non-empty sequence of motion events
ending at `T` the window's origin is `int(T - anchor * size)` evaluated in
`double` arithmetic; it depends only on `T`, not on the intermediate motion
points, and for 32-bit coordinates each of its coordinates is within 1 of the
origin at grab time plus `T - grab`. -/
theorem no_drift {V : Type} (I : view_interface V)
    (enable_snap_off snap_off_threshold : Int) (view : V) (grab : wf_point)
    (ms ms' : List wf_point) (T : wf_point)
    (hw : 0 < (I.get_wm_geometry view).width) (hh : 0 < (I.get_wm_geometry view).height)
    (hunlocked : (move_snap_helper_t.ctor I enable_snap_off snap_off_threshold
        view grab).1.view_in_slot = false)
    (hmove : ∀ v x y, I.get_wm_geometry (I.move v x y) =
      { x := x, y := y, width := (I.get_wm_geometry v).width,
        height := (I.get_wm_geometry v).height })
    (hmoving : ∀ v b, (I.get_wm_geometry (I.set_moving v b)).width = (I.get_wm_geometry v).width ∧
      (I.get_wm_geometry (I.set_moving v b)).height = (I.get_wm_geometry v).height) :
    I.get_wm_geometry (run I (move_snap_helper_t.ctor I enable_snap_off snap_off_threshold
        view grab).1 (List.map event.motion (ms ++ [T]))).view =
      { x := trunc (double_sub (double_of_int T.x)
          (double_mul (double_div (double_mul 1 (double_of_int (grab.x - (I.get_wm_geometry view).x)))
            (double_of_int (I.get_wm_geometry view).width))
            (double_of_int (I.get_wm_geometry view).width)))
        y := trunc (double_sub (double_of_int T.y)
          (double_mul (double_div (double_mul 1 (double_of_int (grab.y - (I.get_wm_geometry view).y)))
            (double_of_int (I.get_wm_geometry view).height))
            (double_of_int (I.get_wm_geometry view).height)))
        width := (I.get_wm_geometry view).width
        height := (I.get_wm_geometry view).height } ∧
    I.get_wm_geometry (run I (move_snap_helper_t.ctor I enable_snap_off snap_off_threshold
        view grab).1 (List.map event.motion (ms ++ [T]))).view =
      I.get_wm_geometry (run I (move_snap_helper_t.ctor I enable_snap_off snap_off_threshold
        view grab).1 (List.map event.motion (ms' ++ [T]))).view ∧
    (is_int grab.x → is_int (I.get_wm_geometry view).x → is_int (I.get_wm_geometry view).width →
      is_int T.x →
      |(I.get_wm_geometry (run I (move_snap_helper_t.ctor I enable_snap_off snap_off_threshold
          view grab).1 (List.map event.motion (ms ++ [T]))).view).x -
        ((I.get_wm_geometry view).x + (T.x - grab.x))| ≤ 1) ∧
    (is_int grab.y → is_int (I.get_wm_geometry view).y → is_int (I.get_wm_geometry view).height →
      is_int T.y →
      |(I.get_wm_geometry (run I (move_snap_helper_t.ctor I enable_snap_off snap_off_threshold
          view grab).1 (List.map event.motion (ms ++ [T]))).view).y -
        ((I.get_wm_geometry view).y + (T.y - grab.y))| ≤ 1) := by
  have key : ∀ l : List wf_point,
      I.get_wm_geometry (run I (move_snap_helper_t.ctor I enable_snap_off snap_off_threshold
        view grab).1 (List.map event.motion (l ++ [T]))).view =
      { x := trunc (double_sub (double_of_int T.x)
          (double_mul (double_div (double_mul 1 (double_of_int (grab.x - (I.get_wm_geometry view).x)))
            (double_of_int (I.get_wm_geometry view).width))
            (double_of_int (I.get_wm_geometry view).width)))
        y := trunc (double_sub (double_of_int T.y)
          (double_mul (double_div (double_mul 1 (double_of_int (grab.y - (I.get_wm_geometry view).y)))
            (double_of_int (I.get_wm_geometry view).height))
            (double_of_int (I.get_wm_geometry view).height)))
        width := (I.get_wm_geometry view).width
        height := (I.get_wm_geometry view).height } := by
    intro l
    rw [run_motions_final I hmove l T _ hunlocked]
    simp only [move_snap_helper_t.ctor, (hmoving view true).1, (hmoving view true).2]
  refine ⟨key ms, (key ms).trans (key ms').symm, ?_, ?_⟩
  · rintro ⟨g1, g2⟩ ⟨b1, b2⟩ ⟨w1, w2⟩ hT
    rw [key ms]
    have := anchor_target_near (grab.x - (I.get_wm_geometry view).x) (I.get_wm_geometry view).width
      T.x hw w2 (by omega) (by omega) hT
    have e : (I.get_wm_geometry view).x + (T.x - grab.x) =
        T.x - (grab.x - (I.get_wm_geometry view).x) := by ring
    rw [e]; exact this
  · rintro ⟨g1, g2⟩ ⟨b1, b2⟩ ⟨w1, w2⟩ hT
    rw [key ms]
    have := anchor_target_near (grab.y - (I.get_wm_geometry view).y) (I.get_wm_geometry view).height
      T.y hh w2 (by omega) (by omega) hT
    have e : (I.get_wm_geometry view).y + (T.y - grab.y) =
        T.y - (grab.y - (I.get_wm_geometry view).y) := by ring
    rw [e]; exact this

/-- C4 (amended), on the floating window (10, 20, 100, 50) grabbed at
(35, 30): after motions to (40, 40), (1, 2) and finally (60, 70) the window is
within 1 of (10 + 25, 20 + 40) = (35, 60), and at the same place as after the
single motion to (60, 70). -/
theorem no_drift_witness :
    (0 < (simple_view_interface.get_wm_geometry floating_view).width ∧
      0 < (simple_view_interface.get_wm_geometry floating_view).height ∧
      (move_snap_helper_t.ctor simple_view_interface 1 0 floating_view
        { x := 35, y := 30 }).1.view_in_slot = false) ∧
    (is_int 35 ∧ is_int 10 ∧ is_int 100 ∧ is_int 60) ∧
    simple_view_interface.get_wm_geometry
      (run simple_view_interface (move_snap_helper_t.ctor simple_view_interface 1 0
        floating_view { x := 35, y := 30 }).1
        (List.map event.motion
          ([({ x := 40, y := 40 } : wf_point), { x := 1, y := 2 }] ++ [{ x := 60, y := 70 }]))).view =
    simple_view_interface.get_wm_geometry
      (run simple_view_interface (move_snap_helper_t.ctor simple_view_interface 1 0
        floating_view { x := 35, y := 30 }).1
        (List.map event.motion ([] ++ [({ x := 60, y := 70 } : wf_point)]))).view ∧
    |(simple_view_interface.get_wm_geometry
      (run simple_view_interface (move_snap_helper_t.ctor simple_view_interface 1 0
        floating_view { x := 35, y := 30 }).1
        (List.map event.motion
          ([({ x := 40, y := 40 } : wf_point), { x := 1, y := 2 }] ++ [{ x := 60, y := 70 }]))).view).x -
      35| ≤ 1 :=
  ⟨⟨by decide, by decide, by decide⟩, ⟨by decide, by decide, by decide, by decide⟩,
   (no_drift simple_view_interface 1 0 floating_view { x := 35, y := 30 }
      [{ x := 40, y := 40 }, { x := 1, y := 2 }] [] { x := 60, y := 70 }
      (by decide) (by decide) (by decide) (fun _ _ _ => rfl) (fun _ _ => ⟨rfl, rfl⟩)).2.1,
   (no_drift simple_view_interface 1 0 floating_view { x := 35, y := 30 }
      [{ x := 40, y := 40 }, { x := 1, y := 2 }] [] { x := 60, y := 70 }
      (by decide) (by decide) (by decide) (fun _ _ _ => rfl) (fun _ _ => ⟨rfl, rfl⟩)).2.2.1
      (by decide) (by decide) (by decide) (by decide)⟩

/-! ## Theorems: snap-off over a sequence of events -/

/-- The threshold test of `handle_motion` at a motion point, against the
Euclidean distance from the grab point. -/
theorem distance_reached_iff_euclid (grab p : wf_point) (t : Int) :
    distance_reached ((p.x - grab.x) * (p.x - grab.x) + (p.y - grab.y) * (p.y - grab.y)) t = true ↔
      (t : ℝ) ≤ Real.sqrt (((p.x - grab.x) ^ 2 + (p.y - grab.y) ^ 2 : Int) : ℝ) := by
  rw [distance_reached_iff_sqrt]
  have e : ((p.x - grab.x) * (p.x - grab.x) + (p.y - grab.y) * (p.y - grab.y)) =
      ((p.x - grab.x) ^ 2 + (p.y - grab.y) ^ 2) := by ring
  rw [e]

/-- A locked session stays locked, and emits no snap-off request, through one
event that is not a motion reaching the threshold. -/
theorem step_locked {V : Type} (I : view_interface V) (s : move_snap_helper_t V) (e : event V)
    (hl : s.view_in_slot = true)
    (he : ∀ p, e = event.motion p →
      distance_reached ((p.x - s.grab.x) * (p.x - s.grab.x) + (p.y - s.grab.y) * (p.y - s.grab.y))
        s.snap_off_threshold = false) :
    (step I s e).1.view_in_slot = true ∧ (step I s e).2.any is_snap_request = false := by
  cases e with
  | motion to_ =>
    have := he to_ rfl
    simp [step, move_snap_helper_t.handle_motion, hl, this, is_snap_request]
  | input_released => simp [step, move_snap_helper_t.handle_input_released, hl, is_snap_request]
  | geometry_changed =>
    simp [step, move_snap_helper_t.view_geometry_changed, move_snap_helper_t.adjust_around_grab,
      hl, is_snap_request]
  | view_changed v => simp [step, hl]

/-- A locked session stays locked, and emits no snap-off request, through a
sequence of events none of which is a motion reaching the threshold. -/
theorem run_locked {V : Type} (I : view_interface V) (es : List (event V)) :
    ∀ s : move_snap_helper_t V, s.view_in_slot = true →
      (∀ p, event.motion p ∈ es →
        distance_reached ((p.x - s.grab.x) * (p.x - s.grab.x) + (p.y - s.grab.y) * (p.y - s.grab.y))
          s.snap_off_threshold = false) →
      (run I s es).view_in_slot = true ∧
      (trace I s es).countP (fun out => out.any is_snap_request) = 0 := by
  induction es with
  | nil => intro s hl _; exact ⟨hl, rfl⟩
  | cons e es ih =>
    intro s hl he
    have hstep := step_locked I s e hl (fun p hp => he p (by simp [hp]))
    obtain ⟨_, _, hg, ht⟩ := step_frozen I s e
    have hrest := ih (step I s e).1 hstep.1 (fun p hp => by
      rw [hg, ht]; exact he p (List.mem_cons_of_mem _ hp))
    refine ⟨hrest.1, ?_⟩
    simp only [trace]
    rw [List.countP_cons_of_neg]
    · exact hrest.2
    · simp [hstep.2]

/-- C6: once a session is unlocked it stays unlocked through every later
event (motion, input release, geometry-changed callback, change of the window
by another actor); over any sequence of events at most one event emits a
fullscreen-exit or tile request, and such an event takes the session from
locked to unlocked; for a session that starts locked, nothing snaps off before
the first motion whose distance from the grab point reaches the threshold,
that motion unlocks the session, and every later motion records its point and
requests a move to the anchor position `int(to - px * size)`, computed in
`double` arithmetic with the anchor stored at construction. -/
theorem snap_off_fires_once {V : Type} (I : view_interface V) :
    (∀ (s : move_snap_helper_t V) (es : List (event V)),
      s.view_in_slot = false → (run I s es).view_in_slot = false) ∧
    (∀ (s : move_snap_helper_t V) (es : List (event V)),
      (trace I s es).countP (fun out => out.any is_snap_request) ≤ 1) ∧
    (∀ (s : move_snap_helper_t V) (e : event V),
      (step I s e).2.any is_snap_request = true →
        s.view_in_slot = true ∧ (step I s e).1.view_in_slot = false) ∧
    (∀ (s : move_snap_helper_t V) (pre : List (event V)) (to_ : wf_point),
      s.view_in_slot = true →
      (∀ p, event.motion p ∈ pre → ¬ (s.snap_off_threshold : ℝ) ≤
        Real.sqrt (((p.x - s.grab.x) ^ 2 + (p.y - s.grab.y) ^ 2 : Int) : ℝ)) →
      (s.snap_off_threshold : ℝ) ≤
        Real.sqrt (((to_.x - s.grab.x) ^ 2 + (to_.y - s.grab.y) ^ 2 : Int) : ℝ) →
      (run I s pre).view_in_slot = true ∧
      (trace I s pre).countP (fun out => out.any is_snap_request) = 0 ∧
      (run I s (pre ++ [event.motion to_])).view_in_slot = false ∧
      (∀ (post : List (event V)) (to2 : wf_point),
        (run I s (pre ++ event.motion to_ :: post)).view_in_slot = false ∧
        ((run I s (pre ++ event.motion to_ :: post)).handle_motion I to2).1.last_grabbing_position
          = to2 ∧
        ((run I s (pre ++ event.motion to_ :: post)).handle_motion I to2).2 =
          [request.move_wobbly to2.x to2.y, request.disconnect_signal,
           request.move
            (trunc (double_sub (double_of_int to2.x) (double_mul s.px (double_of_int
              (I.get_wm_geometry (run I s (pre ++ event.motion to_ :: post)).view).width))))
            (trunc (double_sub (double_of_int to2.y) (double_mul s.py (double_of_int
              (I.get_wm_geometry (run I s (pre ++ event.motion to_ :: post)).view).height)))),
           request.connect_signal])) := by
  refine ⟨fun s es hu => run_unlocked I es s hu, ?_, fun s e h => step_snap_request I s e h, ?_⟩
  · intro s es
    induction es generalizing s with
    | nil => simp [trace]
    | cons e es ih =>
      simp only [trace]
      by_cases h : (step I s e).2.any is_snap_request = true
      · rw [List.countP_cons, trace_unlocked I es _ (step_snap_request I s e h).2]
        simp [h]
      · rw [List.countP_cons]
        simp only [h, if_false, Nat.add_zero]
        exact ih _
  · intro s pre to_ hl hpre hto
    have hpre' : ∀ p, event.motion p ∈ pre →
        distance_reached ((p.x - s.grab.x) * (p.x - s.grab.x) + (p.y - s.grab.y) * (p.y - s.grab.y))
          s.snap_off_threshold = false := by
      intro p hp
      have := hpre p hp
      rw [← distance_reached_iff_euclid] at this
      simpa using this
    obtain ⟨hlocked, hcount⟩ := run_locked I pre s hl hpre'
    obtain ⟨_, _, hg, ht⟩ := run_frozen I pre s
    have hto' : distance_reached
        ((to_.x - (run I s pre).grab.x) * (to_.x - (run I s pre).grab.x) +
          (to_.y - (run I s pre).grab.y) * (to_.y - (run I s pre).grab.y))
        (run I s pre).snap_off_threshold = true := by
      rw [hg, ht]; exact (distance_reached_iff_euclid _ _ _).mpr hto
    have hsnap : (step I (run I s pre) (event.motion to_)).1.view_in_slot = false := by
      simp [step, move_snap_helper_t.handle_motion, hlocked, hto', move_snap_helper_t.snap_off,
        move_snap_helper_t.adjust_around_grab]
    have hpost : ∀ post : List (event V),
        (run I s (pre ++ event.motion to_ :: post)).view_in_slot = false := by
      intro post
      rw [run_append]
      simp only [run]
      exact run_unlocked I post _ hsnap
    refine ⟨hlocked, hcount, ?_, ?_⟩
    · exact hpost []
    · intro post to2
      obtain ⟨hpx, hpy, _, _⟩ := run_frozen I (pre ++ event.motion to_ :: post) s
      refine ⟨hpost post, ?_, ?_⟩
      · rw [(handle_motion_unlocked I _ to2 (hpost post)).1]
        rfl
      · rw [(handle_motion_unlocked I _ to2 (hpost post)).2, hpx, hpy]

/-- C6, on the tiled session (threshold 10, grab (50, 50)): motions to
(55, 50) and (52, 57) and a geometry-changed callback leave it locked with no
snap-off request; the motion to (61, 50) unlocks it; it is still unlocked
after the later events, and the whole sequence has exactly one event with a
snap-off request. -/
theorem snap_off_fires_once_witness :
    (tiled_session.view_in_slot = true ∧
      (∀ p, event.motion p ∈ pinned_events → ¬ (tiled_session.snap_off_threshold : ℝ) ≤
        Real.sqrt (((p.x - tiled_session.grab.x) ^ 2 + (p.y - tiled_session.grab.y) ^ 2 : Int) : ℝ)) ∧
      (tiled_session.snap_off_threshold : ℝ) ≤
        Real.sqrt ((((61 : Int) - tiled_session.grab.x) ^ 2 +
          ((50 : Int) - tiled_session.grab.y) ^ 2 : Int) : ℝ)) ∧
    (run simple_view_interface tiled_session pinned_events).view_in_slot = true ∧
    (run simple_view_interface tiled_session
      (pinned_events ++ [event.motion { x := 61, y := 50 }])).view_in_slot = false ∧
    (run simple_view_interface tiled_session
      (pinned_events ++ event.motion { x := 61, y := 50 } :: free_events)).view_in_slot = false ∧
    (trace simple_view_interface tiled_session
      (pinned_events ++ event.motion { x := 61, y := 50 } :: free_events)).countP
        (fun out => out.any is_snap_request) = 1 := by
  have h2 : ∀ p, event.motion p ∈ pinned_events → ¬ (tiled_session.snap_off_threshold : ℝ) ≤
      Real.sqrt (((p.x - tiled_session.grab.x) ^ 2 + (p.y - tiled_session.grab.y) ^ 2 : Int) : ℝ) := by
    intro p hp
    rw [← distance_reached_iff_euclid]
    simp only [pinned_events, List.mem_cons, event.motion.injEq, List.not_mem_nil,
      false_or, or_false, reduceCtorEq] at hp
    rcases hp with rfl | rfl <;> decide
  have h3 : (tiled_session.snap_off_threshold : ℝ) ≤
      Real.sqrt ((((61 : Int) - tiled_session.grab.x) ^ 2 +
        ((50 : Int) - tiled_session.grab.y) ^ 2 : Int) : ℝ) :=
    (distance_reached_iff_sqrt _ _).mp (by decide)
  have h := (snap_off_fires_once simple_view_interface).2.2.2 tiled_session pinned_events
    { x := 61, y := 50 } (by decide) h2 h3
  refine ⟨⟨by decide, h2, h3⟩, h.1, h.2.2.1, (h.2.2.2 free_events { x := 0, y := 0 }).1, ?_⟩
  decide

end wf
